import Mathlib

/-!
Verification of the search-and-cache orchestration core of the
weekend-recommender repository: fingerprint generation (`src/lib/cache/keys.ts`),
cache lookup/store/history and the cost model (`src/lib/cache/manager.ts`),
the Serper search adapter (`serper.ts`), the agent tool loop
(`src/lib/search/agent.ts`) and the search API handler (`/api/search` POST).

Node's `crypto` SHA-256 is embedded in full over `Nat` with explicit `% 2^32`
word arithmetic; JavaScript strings are embedded as Lean `String`s, `Date`
values as millisecond timestamps (`Nat`), monetary values as `ℚ`, and the
PostgreSQL `search_cache` table as a list of rows.
-/

namespace WeekendRecommender

set_option maxRecDepth 100000

/-! ## SHA-256 (node `crypto.createHash('sha256').update(s,'utf8').digest('hex')`) -/

/-- The word modulus `2^32` for SHA-256 32-bit arithmetic. -/
def w32 : Nat := 4294967296

/-- Addition modulo `2^32`. -/
def add32 (a b : Nat) : Nat := (a + b) % w32

/-- Right rotation of a 32-bit word by `n` bits. -/
def rotr32 (n x : Nat) : Nat := ((x >>> n) ||| (x <<< (32 - n))) % w32

/-- Bitwise complement of a 32-bit word. -/
def not32 (x : Nat) : Nat := x ^^^ 4294967295

/-- The SHA-256 `Ch` function. -/
def ch (x y z : Nat) : Nat := (x &&& y) ^^^ (not32 x &&& z)

/-- The SHA-256 `Maj` function. -/
def maj (x y z : Nat) : Nat := (x &&& y) ^^^ (x &&& z) ^^^ (y &&& z)

/-- The SHA-256 big sigma-0 function. -/
def bigSigma0 (x : Nat) : Nat := rotr32 2 x ^^^ rotr32 13 x ^^^ rotr32 22 x

/-- The SHA-256 big sigma-1 function. -/
def bigSigma1 (x : Nat) : Nat := rotr32 6 x ^^^ rotr32 11 x ^^^ rotr32 25 x

/-- The SHA-256 small sigma-0 function. -/
def smallSigma0 (x : Nat) : Nat := rotr32 7 x ^^^ rotr32 18 x ^^^ (x >>> 3)

/-- The SHA-256 small sigma-1 function. -/
def smallSigma1 (x : Nat) : Nat := rotr32 17 x ^^^ rotr32 19 x ^^^ (x >>> 10)

/-- The sixty-four SHA-256 round constants, in decimal. -/
def sha256K : List Nat :=
  [1116352408, 1899447441, 3049323471, 3921009573, 961987163,
   1508970993, 2453635748, 2870763221, 3624381080, 310598401,
   607225278, 1426881987, 1925078388, 2162078206, 2614888103,
   3248222580, 3835390401, 4022224774, 264347078, 604807628,
   770255983, 1249150122, 1555081692, 1996064986, 2554220882,
   2821834349, 2952996808, 3210313671, 3336571891, 3584528711,
   113926993, 338241895, 666307205, 773529912, 1294757372,
   1396182291, 1695183700, 1986661051, 2177026350, 2456956037,
   2730485921, 2820302411, 3259730800, 3345764771, 3516065817,
   3600352804, 4094571909, 275423344, 430227734, 506948616,
   659060556, 883997877, 958139571, 1322822218, 1537002063,
   1747873779, 1955562222, 2024104815, 2227730452, 2361852424,
   2428436474, 2756734187, 3204031479, 3329325298]

/-- The initial SHA-256 hash state `h0..h7`, in decimal. -/
def sha256H0 : List Nat :=
  [1779033703, 3144134277, 1013904242, 2773480762, 1359893119,
   2600822924, 528734635, 1541459225]

/-- Standard UTF-8 encoding of a single Unicode code point, as a byte list. -/
def utf8Encode (c : Nat) : List Nat :=
  if c < 0x80 then [c]
  else if c < 0x800 then [0xc0 ||| (c >>> 6), 0x80 ||| (c &&& 0x3f)]
  else if c < 0x10000 then
    [0xe0 ||| (c >>> 12), 0x80 ||| ((c >>> 6) &&& 0x3f), 0x80 ||| (c &&& 0x3f)]
  else
    [0xf0 ||| (c >>> 18), 0x80 ||| ((c >>> 12) &&& 0x3f),
     0x80 ||| ((c >>> 6) &&& 0x3f), 0x80 ||| (c &&& 0x3f)]

/-- UTF-8 bytes of a string. -/
def strBytes (s : String) : List Nat :=
  s.data.flatMap (fun c => utf8Encode c.toNat)

/-- Big-endian decomposition of `n` into `k` bytes. -/
def beBytes (k n : Nat) : List Nat :=
  match k with
  | 0 => []
  | k + 1 => (n >>> (8 * k)) % 256 :: beBytes k n

/-- The SHA-256 message padding: a `0x80` byte, zero bytes up to 56 modulo 64,
then the 64-bit big-endian bit length. -/
def sha256Pad (msg : List Nat) : List Nat :=
  msg ++ 0x80 :: List.replicate ((119 - msg.length % 64) % 64) 0 ++ beBytes 8 (8 * msg.length)

/-- Grouping of a byte list into 32-bit big-endian words. -/
def toWords : List Nat → List Nat
  | b0 :: b1 :: b2 :: b3 :: rest =>
      (((b0 <<< 8 ||| b1) <<< 8 ||| b2) <<< 8 ||| b3) :: toWords rest
  | _ => []

/-- Grouping of a word list into 16-word blocks. -/
def chunk16 : List Nat → List (List Nat)
  | [] => []
  | a0 :: a1 :: a2 :: a3 :: a4 :: a5 :: a6 :: a7 ::
    a8 :: a9 :: a10 :: a11 :: a12 :: a13 :: a14 :: a15 :: rest =>
      [a0, a1, a2, a3, a4, a5, a6, a7, a8, a9, a10, a11, a12, a13, a14, a15] :: chunk16 rest
  | l => [l]

/-- Extension of the 16 message-schedule words by `i` further words. -/
def extendSchedule (w : List Nat) (i : Nat) : List Nat :=
  match i with
  | 0 => w
  | i + 1 =>
    let n := w.length
    let nw := add32 (add32 (smallSigma1 (w.getD (n - 2) 0)) (w.getD (n - 7) 0))
                    (add32 (smallSigma0 (w.getD (n - 15) 0)) (w.getD (n - 16) 0))
    extendSchedule (w ++ [nw]) i

/-- One SHA-256 compression round; `kw` pairs a round constant with a schedule word. -/
def sha256Round (st : List Nat) (kw : Nat × Nat) : List Nat :=
  match st with
  | [a, b, c, d, e, f, g, h] =>
    let t1 := add32 (add32 (add32 h (bigSigma1 e)) (add32 (ch e f g) kw.1)) kw.2
    let t2 := add32 (bigSigma0 a) (maj a b c)
    [add32 t1 t2, a, b, c, add32 d t1, e, f, g]
  | st => st

/-- Processing of one 512-bit block, updating the running hash value. -/
def sha256Block (hs : List Nat) (block : List Nat) : List Nat :=
  let w := extendSchedule block 48
  let st := (sha256K.zip w).foldl sha256Round hs
  hs.zipWith add32 st

/-- Lowercase hexadecimal digit for a value below sixteen. -/
def hexDigit (n : Nat) : Char :=
  if n < 10 then Char.ofNat (48 + n) else Char.ofNat (87 + n)

/-- Lowercase eight-hex-digit rendering of a 32-bit word. -/
def wordHex (n : Nat) : List Char :=
  [hexDigit ((n >>> 28) % 16), hexDigit ((n >>> 24) % 16), hexDigit ((n >>> 20) % 16),
   hexDigit ((n >>> 16) % 16), hexDigit ((n >>> 12) % 16), hexDigit ((n >>> 8) % 16),
   hexDigit ((n >>> 4) % 16), hexDigit (n % 16)]

/-- SHA-256 of a string's UTF-8 bytes, rendered as 64 lowercase hex characters,
mirroring node's `crypto` sha256 hex digest used by `generateCacheKey`. -/
def sha256Hex (s : String) : String :=
  ⟨(((chunk16 (toWords (sha256Pad (strBytes s)))).foldl sha256Block sha256H0).map wordHex).flatten⟩

/-- Validation of the embedding against the NIST test vector for `"abc"`. -/
theorem sha256Hex_nist_abc : sha256Hex ("abc") =
    "ba7816bf8f01cfea414140de5dae2223b00361a396177a9cb410ff61f20015ad" := by decide

/-- Validation of the embedding against the test vector for the empty string. -/
theorem sha256Hex_nist_empty : sha256Hex ("") =
    "e3b0c44298fc1c149afbf4c8996fb92427ae41e4649b934ca495991b7852b855" := by decide

/-! ## Request data model (`src/lib/search/types.ts`, as consumed by the core) -/

/-- One attendee of a recommendation request: an age and a role string. -/
structure Attendee where
  age : Nat
  role : String
deriving DecidableEq

/-- The validated recommendation request handed to the core (`SearchRequest`).
Dates are carried in their canonical ISO string form; `preferences` is the
optional free-text field. -/
structure SearchRequest where
  city : String
  dateRangeStart : String
  dateRangeEnd : String
  attendees : List Attendee
  preferences : Option String
deriving DecidableEq

/-! ## Fingerprint generator (`src/lib/cache/keys.ts`, `generateCacheKey`) -/

/-- Lower-casing of one character: the one-to-one case mappings of Basic
Latin (A-Z), the Latin-1 Supplement (À-Þ except ×), Latin Extended-A — which
covers the Polish letters the application handles, e.g. Ł to ł — Greek
(Α-Ω with the accented capitals Ϊ and Ϋ), and Cyrillic (Ѐ-Я). JavaScript
`toLowerCase` coincides with this on that repertoire; İ (U+0130), whose full
lowercase mapping is two code points, is deliberately left unmapped. -/
def toLowerCh (c : Char) : Char :=
  let n := c.toNat
  if 65 ≤ n && n ≤ 90 then Char.ofNat (n + 32)
  else if 192 ≤ n && n ≤ 222 && n ≠ 215 then Char.ofNat (n + 32)
  else if 913 ≤ n && n ≤ 939 && n ≠ 930 then Char.ofNat (n + 32)
  else if 1040 ≤ n && n ≤ 1071 then Char.ofNat (n + 32)
  else if 1024 ≤ n && n ≤ 1039 then Char.ofNat (n + 80)
  else if 256 ≤ n && n ≤ 303 && n % 2 = 0 then Char.ofNat (n + 1)
  else if 306 ≤ n && n ≤ 311 && n % 2 = 0 then Char.ofNat (n + 1)
  else if 313 ≤ n && n ≤ 328 && n % 2 = 1 then Char.ofNat (n + 1)
  else if 330 ≤ n && n ≤ 375 && n % 2 = 0 then Char.ofNat (n + 1)
  else if n = 376 then Char.ofNat 255
  else if 377 ≤ n && n ≤ 381 && n % 2 = 1 then Char.ofNat (n + 1)
  else c

/-- The model of JavaScript `String.prototype.toLowerCase`. -/
def jsToLower (s : String) : String := ⟨s.data.map toLowerCh⟩

/-- The whitespace class trimmed by JavaScript `String.prototype.trim`: tab,
line feed, vertical tab, form feed, carriage return, space, no-break space,
the Ogham space mark, the Zs spaces U+2000 through U+200A, the line and
paragraph separators, the narrow no-break space, the medium mathematical
space, the ideographic space, and the zero-width no-break space. -/
def isTrimWs (c : Char) : Bool :=
  c.toNat = 9 || c.toNat = 10 || c.toNat = 11 || c.toNat = 12 || c.toNat = 13 ||
  c.toNat = 32 || c.toNat = 160 || c.toNat = 0x1680 ||
  (0x2000 ≤ c.toNat && c.toNat ≤ 0x200a) ||
  c.toNat = 0x2028 || c.toNat = 0x2029 || c.toNat = 0x202f || c.toNat = 0x205f ||
  c.toNat = 0x3000 || c.toNat = 0xfeff

/-- The model of JavaScript `String.prototype.trim`: leading and trailing
whitespace removed. -/
def jsTrim (s : String) : String :=
  ⟨((s.data.dropWhile isTrimWs).reverse.dropWhile isTrimWs).reverse⟩

/-- Attendee normalization from `keys.ts`: the role is lower-cased, the age kept. -/
def normAttendee (a : Attendee) : Attendee :=
  { age := a.age, role := jsToLower a.role }

/-- Stable insertion of an attendee into a list already sorted by ascending age:
the inserted element goes before every element of equal age, matching the
stability of JavaScript `Array.prototype.sort` with comparator `a.age - b.age`
for an element that precedes the list elements in the input. -/
def insertByAge (a : Attendee) : List Attendee → List Attendee
  | [] => [a]
  | b :: rest => if b.age < a.age then b :: insertByAge a rest else a :: b :: rest

/-- Stable sort of attendees by ascending age, the Lean rendering of
`attendees.sort((a, b) => a.age - b.age)` (stable since ES2019). -/
def sortByAge : List Attendee → List Attendee
  | [] => []
  | a :: rest => insertByAge a (sortByAge rest)

/-- The subsequence of a list whose attendees have the given age, in input
order — the data a stable sort by age preserves. -/
def ageGroup (a : Nat) (l : List Attendee) : List Attendee :=
  l.filter (fun x => x.age == a)

/-- Concatenation of the age groups of `l` over an age list. -/
def groupsByAge (A : List Nat) (l : List Attendee) : List Attendee :=
  A.flatMap (fun a => ageGroup a l)

/-- Insertion into a strictly ascending age list, keeping it duplicate-free. -/
def insertAge (a : Nat) : List Nat → List Nat
  | [] => [a]
  | b :: rest =>
    if b < a then b :: insertAge a rest
    else if b = a then b :: rest
    else a :: b :: rest

/-- The strictly ascending list of the distinct ages occurring in a list. -/
def agesAsc : List Attendee → List Nat
  | [] => []
  | x :: rest => insertAge x.age (agesAsc rest)

/-- The normalized object built inside `generateCacheKey` (keys.ts lines 17-40),
with the stable field order used for serialization. -/
structure NormalizedRequest where
  userId : Nat
  city : String
  dateRangeStart : String
  dateRangeEnd : String
  attendees : List Attendee
  preferences : String
deriving DecidableEq

/-- Normalization from `keys.ts`: city lower-cased then trimmed, dates kept,
attendees role-lowered and stably sorted by ascending age, preferences
defaulted to the empty string when absent then lower-cased and trimmed,
and the user id folded in. -/
def normalizeRequest (params : SearchRequest) (userId : Nat) : NormalizedRequest :=
  { userId := userId
    city := jsTrim (jsToLower params.city)
    dateRangeStart := params.dateRangeStart
    dateRangeEnd := params.dateRangeEnd
    attendees := sortByAge (params.attendees.map normAttendee)
    preferences := jsTrim (jsToLower (params.preferences.getD (""))) }

/-- JSON escaping of one character, as performed by `JSON.stringify` on strings. -/
def jsonEscapeChar (c : Char) : String :=
  if c = Char.ofNat 34 then "\\\""
  else if c = Char.ofNat 92 then "\\\\"
  else if c = Char.ofNat 8 then "\\b"
  else if c = Char.ofNat 12 then "\\f"
  else if c = Char.ofNat 10 then "\\n"
  else if c = Char.ofNat 13 then "\\r"
  else if c = Char.ofNat 9 then "\\t"
  else if c.toNat < 32 then "\\u00" ++ ⟨[hexDigit (c.toNat / 16), hexDigit (c.toNat % 16)]⟩
  else ⟨[c]⟩

/-- JSON rendering of a string, double-quoted and escaped. -/
def jsonStr (s : String) : String :=
  "\"" ++ String.join (s.data.map jsonEscapeChar) ++ "\""

/-- Comma-separated concatenation. -/
def commaJoin : List String → String
  | [] => ""
  | [x] => x
  | x :: rest => x ++ "," ++ commaJoin rest

/-- The `JSON.stringify` rendering of one normalized attendee, field order
`age`, `role`. -/
def serializeAttendee (a : Attendee) : String :=
  "\x7b\"age\":" ++ toString a.age ++ ",\"role\":" ++ jsonStr a.role ++ "\x7d"

/-- The deterministic `JSON.stringify` serialization of the normalized object,
with insertion field order `userId`, `city`, `dateRangeStart`, `dateRangeEnd`,
`attendees`, `preferences`. -/
def serializeNormalized (n : NormalizedRequest) : String :=
  "\x7b\"userId\":" ++ toString n.userId ++
  ",\"city\":" ++ jsonStr n.city ++
  ",\"dateRangeStart\":" ++ jsonStr n.dateRangeStart ++
  ",\"dateRangeEnd\":" ++ jsonStr n.dateRangeEnd ++
  ",\"attendees\":[" ++ commaJoin (n.attendees.map serializeAttendee) ++
  "],\"preferences\":" ++ jsonStr n.preferences ++ "\x7d"

/-- The fingerprint function of `keys.ts`: SHA-256 hex digest of the serialized
normalized parameters, user id included. -/
def generateCacheKey (params : SearchRequest) (userId : Nat) : String :=
  sha256Hex (serializeNormalized (normalizeRequest params userId))

/-! ## JSON values and a model of `JSON.parse`

The agent's finalizing step and the stored `recommendations` blob are JSON
values. Numbers are modelled as exact rationals. -/

/-- A JSON value. -/
inductive Jsonv where
  | null
  | bool (b : Bool)
  | num (q : ℚ)
  | str (s : String)
  | arr (elems : List Jsonv)
  | obj (fields : List (String × Jsonv))

/-- The left-brace character. -/
def lbrace : Char := Char.ofNat 123

/-- The right-brace character. -/
def rbrace : Char := Char.ofNat 125

/-- The double-quote character. -/
def dquote : Char := Char.ofNat 34

/-- The backslash character. -/
def bslash : Char := Char.ofNat 92

/-- The backtick character. -/
def btick : Char := Char.ofNat 96

/-- Whitespace as accepted by the JSON grammar and by the `\s` class on the
inputs exercised here: space, tab, line feed, carriage return. -/
def isWsChar (c : Char) : Bool :=
  c = ' ' || c = Char.ofNat 9 || c = Char.ofNat 10 || c = Char.ofNat 13

/-- Removal of leading whitespace from a character list. -/
def skipWs : List Char → List Char
  | [] => []
  | c :: rest => if isWsChar c then skipWs rest else c :: rest

/-- Decimal digit test. -/
def isDigitCh (c : Char) : Bool := 48 ≤ c.toNat && c.toNat ≤ 57

/-- Longest digit prefix and the remainder. -/
def takeDigits : List Char → List Char × List Char
  | [] => ([], [])
  | c :: rest =>
    if isDigitCh c then
      let p := takeDigits rest
      (c :: p.1, p.2)
    else ([], c :: rest)

/-- Natural number denoted by a digit list, accumulator style. -/
def digitsToNat (acc : Nat) : List Char → Nat
  | [] => acc
  | c :: rest => digitsToNat (acc * 10 + (c.toNat - 48)) rest

/-- Hexadecimal digit value, `none` for a non-hex character. -/
def hexVal (c : Char) : Option Nat :=
  if 48 ≤ c.toNat && c.toNat ≤ 57 then some (c.toNat - 48)
  else if 97 ≤ c.toNat && c.toNat ≤ 102 then some (c.toNat - 87)
  else if 65 ≤ c.toNat && c.toNat ≤ 70 then some (c.toNat - 55)
  else none

/-- Body of a JSON string after the opening quote: returns the decoded
characters and the remainder after the closing quote. Escapes and the
rejection of raw control characters follow the JSON grammar. -/
def parseStringBody : List Char → Option (List Char × List Char)
  | [] => none
  | c :: rest =>
    if c = dquote then some ([], rest)
    else if c = bslash then
      match rest with
      | [] => none
      | e :: rest2 =>
        if e = dquote || e = bslash || e = '/' then
          (parseStringBody rest2).map (fun p => (e :: p.1, p.2))
        else if e = 'b' then (parseStringBody rest2).map (fun p => (Char.ofNat 8 :: p.1, p.2))
        else if e = 'f' then (parseStringBody rest2).map (fun p => (Char.ofNat 12 :: p.1, p.2))
        else if e = 'n' then (parseStringBody rest2).map (fun p => (Char.ofNat 10 :: p.1, p.2))
        else if e = 'r' then (parseStringBody rest2).map (fun p => (Char.ofNat 13 :: p.1, p.2))
        else if e = 't' then (parseStringBody rest2).map (fun p => (Char.ofNat 9 :: p.1, p.2))
        else if e = 'u' then
          match rest2 with
          | h1 :: h2 :: h3 :: h4 :: rest3 =>
            match hexVal h1, hexVal h2, hexVal h3, hexVal h4 with
            | some v1, some v2, some v3, some v4 =>
              (parseStringBody rest3).map
                (fun p => (Char.ofNat (((v1 * 16 + v2) * 16 + v3) * 16 + v4) :: p.1, p.2))
            | _, _, _, _ => none
          | _ => none
        else none
    else if c.toNat < 32 then none
    else (parseStringBody rest).map (fun p => (c :: p.1, p.2))

/-- A JSON number: optional minus, integer part without superfluous leading
zero, optional fraction, optional exponent; returns the exact rational and
the remainder. -/
def parseNumber (cs : List Char) : Option (ℚ × List Char) :=
  let sign : Bool × List Char :=
    match cs with
    | c :: rest => if c = '-' then (true, rest) else (false, cs)
    | [] => (false, [])
  match takeDigits sign.2 with
  | ([], _) => none
  | (ds, cs2) =>
    if ds.length > 1 && ds.headD ' ' = '0' then none
    else
      let intPart : ℚ := (digitsToNat 0 ds : ℚ)
      let fracStep : Option (ℚ × List Char) :=
        match cs2 with
        | c :: rest =>
          if c = '.' then
            match takeDigits rest with
            | ([], _) => none
            | (fs, cs3) =>
              some (intPart + (digitsToNat 0 fs : ℚ) / ((10 : ℚ) ^ fs.length), cs3)
          else some (intPart, cs2)
        | [] => some (intPart, [])
      match fracStep with
      | none => none
      | some (mant, cs4) =>
        let expStep : Option (ℚ × List Char) :=
          match cs4 with
          | c :: rest =>
            if c = 'e' || c = 'E' then
              let esign : Bool × List Char :=
                match rest with
                | d :: rest2 =>
                  if d = '+' then (false, rest2)
                  else if d = '-' then (true, rest2)
                  else (false, rest)
                | [] => (false, [])
              match takeDigits esign.2 with
              | ([], _) => none
              | (es, cs5) =>
                let e : ℤ := (digitsToNat 0 es : ℤ)
                some (mant * (10 : ℚ) ^ (if esign.1 then -e else e), cs5)
            else some (mant, cs4)
          | [] => some (mant, [])
        match expStep with
        | none => none
        | some (v, cs6) => some ((if sign.1 then -v else v), cs6)

/-- Parsing mode for the single fuelled JSON parser: a value, the elements of
an array, or the fields of an object. -/
inductive PMode where
  | value
  | arrElems (acc : List Jsonv) (first : Bool)
  | objFields (acc : List (String × Jsonv)) (first : Bool)

/-- Fuelled recursive-descent JSON parser; structural recursion on the fuel so
that the kernel can evaluate it. Returns the value and the remainder. -/
def parseCore : Nat → PMode → List Char → Option (Jsonv × List Char)
  | 0, _, _ => none
  | fuel + 1, PMode.value, cs =>
    match skipWs cs with
    | [] => none
    | c :: rest =>
      if c = lbrace then parseCore fuel (PMode.objFields [] true) rest
      else if c = '[' then parseCore fuel (PMode.arrElems [] true) rest
      else if c = dquote then
        (parseStringBody rest).map (fun p => (Jsonv.str ⟨p.1⟩, p.2))
      else if c = 't' then
        match rest with
        | 'r' :: 'u' :: 'e' :: rest2 => some (Jsonv.bool true, rest2)
        | _ => none
      else if c = 'f' then
        match rest with
        | 'a' :: 'l' :: 's' :: 'e' :: rest2 => some (Jsonv.bool false, rest2)
        | _ => none
      else if c = 'n' then
        match rest with
        | 'u' :: 'l' :: 'l' :: rest2 => some (Jsonv.null, rest2)
        | _ => none
      else
        (parseNumber (c :: rest)).map (fun p => (Jsonv.num p.1, p.2))
  | fuel + 1, PMode.arrElems acc first, cs =>
    match skipWs cs with
    | [] => none
    | c :: rest =>
      if c = ']' then
        if first || !acc.isEmpty then some (Jsonv.arr acc, rest) else none
      else if first then
        match parseCore fuel PMode.value (c :: rest) with
        | some (v, r) => parseCore fuel (PMode.arrElems (acc ++ [v]) false) r
        | none => none
      else if c = ',' then
        match parseCore fuel PMode.value rest with
        | some (v, r) => parseCore fuel (PMode.arrElems (acc ++ [v]) false) r
        | none => none
      else none
  | fuel + 1, PMode.objFields acc first, cs =>
    match skipWs cs with
    | [] => none
    | c :: rest =>
      if c = rbrace then some (Jsonv.obj acc, rest)
      else
        let keyStart : Option (List Char) :=
          if first then
            if c = dquote then some rest else none
          else if c = ',' then
            match skipWs rest with
            | k :: rest2 => if k = dquote then some rest2 else none
            | [] => none
          else none
        match keyStart with
        | none => none
        | some afterQuote =>
          match parseStringBody afterQuote with
          | none => none
          | some (key, r1) =>
            match skipWs r1 with
            | ':' :: r2 =>
              match parseCore fuel PMode.value r2 with
              | some (v, r3) => parseCore fuel (PMode.objFields (acc ++ [(⟨key⟩, v)]) false) r3
              | none => none
            | _ => none

/-- The model of `JSON.parse`: parse one value and require only trailing
whitespace after it; `none` models a thrown `SyntaxError`. -/
def parseJson (s : String) : Option Jsonv :=
  match parseCore (4 * s.length + 8) PMode.value s.data with
  | some (v, rest) => if (skipWs rest).isEmpty then some v else none
  | none => none

/-! ## The markdown code-fence stripper of `agent.ts`

`agent.ts` matches `jsonText` against the pattern
three backticks, optional word json, whitespace, a brace-delimited capture
taken greedily, whitespace, three backticks — and on a match replaces the
text by the capture group. The model below scans for the first opening fence
from which the rest of the pattern matches, and resolves the greedy capture
by choosing the last closing brace that is followed by whitespace and a
fence, exactly as the backtracking regex engine does on such inputs. -/

/-- Test for a leading three-backtick fence. -/
def startsWithFence : List Char → Bool
  | a :: b :: c :: _ => a = btick && b = btick && c = btick
  | _ => false

/-- Reversed-scan for the greedy close of the capture group: in the reversed
body, the first fence occurrence preceded (after whitespace) by a closing
brace; returns the reversed capture. -/
def revScanClose : List Char → Option (List Char)
  | [] => none
  | c :: rest =>
    if startsWithFence (c :: rest) then
      match skipWs (rest.drop 2) with
      | d :: rest2 =>
        if d = rbrace then some (d :: rest2)
        else revScanClose rest
      | [] => revScanClose rest
    else revScanClose rest

/-- The capture group for a body known to start at an opening brace. -/
def findClose (body : List Char) : Option (List Char) :=
  (revScanClose body.reverse).map List.reverse

/-- Attempt of the fence pattern right after an opening fence, with and
without consuming the optional word json. -/
def tryFenceAt (afterOpen : List Char) : Option (List Char) :=
  let attempt : List Char → Option (List Char) := fun cs =>
    match skipWs cs with
    | c :: rest => if c = lbrace then findClose (c :: rest) else none
    | [] => none
  match afterOpen with
  | 'j' :: 's' :: 'o' :: 'n' :: rest =>
    match attempt rest with
    | some cap => some cap
    | none => attempt afterOpen
  | _ => attempt afterOpen

/-- Scan of the text for the first opening fence from which the whole pattern
matches, mirroring the regex engine's position-by-position search. -/
def stripScan : List Char → Option (List Char)
  | [] => none
  | c :: rest =>
    if startsWithFence (c :: rest) then
      match tryFenceAt (rest.drop 2) with
      | some cap => some cap
      | none => stripScan rest
    else stripScan rest

/-- The fence-stripping step of the agent's finalizing parse: the capture
group when the pattern matches, the unchanged text otherwise. -/
def stripFence (t : String) : String :=
  match stripScan t.data with
  | some cap => ⟨cap⟩
  | none => t

/-! ## Search tool adapter (`serper.ts`)

The HTTP `fetch` to the provider is the external oracle: a run is
parameterized by its outcome. A received response carries the `ok` flag, the
status, the body text, and the result of `response.json()` (`none` models a
body that fails JSON decoding); `netFailure` models a rejected `fetch`
(connection refused, timeout). -/

/-- One organic search result. -/
structure SerperOrganic where
  title : String
  snippet : String
  link : String
  date : Option String
deriving DecidableEq

/-- The optional featured-answer box. -/
structure SerperAnswerBox where
  snippet : String
  title : String
  link : String
deriving DecidableEq

/-- One people-also-ask item. -/
structure SerperPaa where
  question : String
  snippet : String
deriving DecidableEq

/-- The echo of the query inside the provider response. -/
structure SerperParamsEcho where
  q : String
deriving DecidableEq

/-- The decoded provider response body; absent optional sections are the
empty list or `none`. -/
structure SerperAPIResponse where
  searchParameters : SerperParamsEcho
  answerBox : Option SerperAnswerBox
  organic : List SerperOrganic
  peopleAlsoAsk : List SerperPaa
deriving DecidableEq

/-- The request payload assembled by `searchWithSerper`; the source's `type`
field is named `searchKind` here because `type` is reserved in Lean. -/
structure SerperSearchParams where
  q : String
  gl : String
  hl : String
  num : Nat
  autocorrect : Bool
  searchKind : String
deriving DecidableEq

/-- The outcome of the one HTTP POST a search call performs. -/
inductive FetchResult where
  | httpResponse (ok : Bool) (status : Nat) (bodyText : String)
      (bodyJson : Option SerperAPIResponse)
  | netFailure (msg : String)

/-- The search call of `serper.ts` (`searchWithSerper`), the API key assumed
configured. Every failure — rejected fetch, non-ok status (thrown inside the
`try`), or undecodable body — is a thrown `Error` that the surrounding
`catch` re-wraps with the `Serper API request failed` prefix. -/
def searchWithSerper (q : String) (num : Nat) (fetch : FetchResult) :
    Except String SerperAPIResponse :=
  let searchParams : SerperSearchParams :=
    { q := q, gl := "pl", hl := "pl", num := num, autocorrect := true, searchKind := "search" }
  let _ := searchParams
  match fetch with
  | FetchResult.netFailure m => Except.error ("Serper API request failed: " ++ m)
  | FetchResult.httpResponse ok status bodyText bodyJson =>
    if !ok then
      Except.error ("Serper API request failed: " ++
        "Serper API error (" ++ toString status ++ "): " ++ bodyText)
    else
      match bodyJson with
      | none => Except.error ("Serper API request failed: " ++ "invalid JSON body")
      | some d => Except.ok d

/-- Comma-and-space joining, the `.join(', ')` of the source. -/
def joinCommaSpace : List String → String
  | [] => ""
  | [x] => x
  | x :: rest => x ++ ", " ++ joinCommaSpace rest

/-- Rendering of one organic result inside `formatSerperResults`. -/
def formatOrganic (idx : Nat) (r : SerperOrganic) : String :=
  toString (idx + 1) ++ ". " ++ r.title ++ "\n" ++
  "   " ++ r.snippet ++ "\n" ++
  "   Link: " ++ r.link ++ "\n" ++
  (match r.date with
   | some d => "   Date: " ++ d ++ "\n"
   | none => "") ++
  "\n"

/-- Rendering of one people-also-ask item inside `formatSerperResults`. -/
def formatPaa (idx : Nat) (r : SerperPaa) : String :=
  toString (idx + 1) ++ ". " ++ r.question ++ "\n" ++
  "   " ++ r.snippet ++ "\n\n"

/-- Indexed concatenation, the `forEach` with running index of the source. -/
def enumFormat {α : Type} (f : Nat → α → String) : Nat → List α → String
  | _, [] => ""
  | i, x :: rest => f i x ++ enumFormat f (i + 1) rest

/-- The plain-text formatting of a provider response (`formatSerperResults`). -/
def formatSerperResults (results : SerperAPIResponse) : String :=
  "Search Query: " ++ results.searchParameters.q ++ "\n\n" ++
  (match results.answerBox with
   | some ab =>
     "📌 Featured Answer:\n" ++ ab.snippet ++ "\n" ++
     "Source: " ++ ab.title ++ " (" ++ ab.link ++ ")\n\n"
   | none => "") ++
  (if results.organic.length > 0 then
    "🔍 Search Results:\n\n" ++ enumFormat formatOrganic 0 results.organic
   else "") ++
  (if results.peopleAlsoAsk.length > 0 then
    "❓ People Also Ask:\n\n" ++ enumFormat formatPaa 0 results.peopleAlsoAsk
   else "")

/-- The tool input the model supplies in a tool-use block. -/
structure ToolInput where
  query : String
  numResults : Option Nat
deriving DecidableEq

/-- The `input.num_results || 10` defaulting: JavaScript `||` also replaces an
explicit zero by the default. -/
def defaultedNum (n : Option Nat) : Nat :=
  match n with
  | none => 10
  | some 0 => 10
  | some k => k

/-- The tool entry point the agent calls (`executeWebSearchTool`): run the
search and format the response. -/
def executeWebSearchTool (input : ToolInput) (fetch : FetchResult) : Except String String :=
  (searchWithSerper input.query (defaultedNum input.numResults) fetch).map formatSerperResults

/-! ## Agent orchestrator (`agent.ts`, `findWeekendActivitiesStreaming`)

The generative model is the second oracle: a function from the conversation
so far to a reply. The streaming variant is embedded (it is the one the
search endpoint calls); the non-streaming `findWeekendActivities` differs
only in event emission and message wording. The advisory `onEvent` progress
callbacks are not modelled. -/

/-- One content block of a model reply or conversation turn. -/
inductive Block where
  | text (s : String)
  | toolUse (id : String) (toolName : String) (input : ToolInput)
  | toolResult (toolUseId : String) (content : String)
deriving DecidableEq

/-- One conversation turn: a role and its content blocks. -/
structure Msg where
  role : String
  content : List Block
deriving DecidableEq

/-- One model reply. -/
structure ModelResponse where
  content : List Block
deriving DecidableEq

/-- The first tool-use block of a reply, as found by
`response.content.find(block.type === 'tool_use')`. -/
def findToolUse : List Block → Option (String × String × ToolInput)
  | [] => none
  | Block.toolUse id nm inp :: _ => some (id, nm, inp)
  | _ :: rest => findToolUse rest

/-- The first text block of a reply, as found by
`response.content.find(block.type === 'text')`. -/
def findTextBlock : List Block → Option String
  | [] => none
  | Block.text s :: _ => some s
  | _ :: rest => findTextBlock rest

/-- One attendee as rendered into the user prompt. -/
def promptAttendee (a : Attendee) : String :=
  a.role ++ " (" ++ toString a.age ++ " years old)"

/-- The per-request user prompt (`generateUserPrompt`). The
`toLocaleDateString('pl-PL', ...)` rendering is locale data and is abstracted
as the identity on the ISO date string; no claim depends on it. A present but
empty preferences string is falsy in the source's `if (preferences)`. -/
def generateUserPrompt (request : SearchRequest) : String :=
  let startDate := request.dateRangeStart
  let endDate := request.dateRangeEnd
  let attendeesList := joinCommaSpace (request.attendees.map promptAttendee)
  "Find weekend activities in " ++ request.city ++ " for " ++ startDate ++
    " to " ++ endDate ++ ".\n\n" ++
  "Attendees: " ++ attendeesList ++ "\n\n" ++
  (match request.preferences with
   | some p => if p = "" then "" else "Preferences: " ++ p ++ "\n\n"
   | none => "") ++
  "Please search for various activities and provide 5-7 diverse recommendations." ++
  " Include a mix of different categories and price points." ++
  " Make sure all recommendations are appropriate for the ages listed." ++
  "\n\nIMPORTANT: Return your final response as a valid JSON object matching the specified format."

/-- How one agent run can end. -/
inductive AgentOutcome where
  | success (recs : Jsonv)
  | malformedOutput (msg : String)
  | unexpectedFormat
  | loopExceeded

/-- The in-flight loop state: the conversation, the number of model
round-trips performed, and the search queries executed so far. -/
structure LoopState where
  msgs : List Msg
  modelCalls : Nat
  searchQueries : List String

/-- The tool-executing part of one loop iteration, after a reply whose first
tool-use block is `(id, input)`: execute the search (any thrown search error
is caught and turned into the tool-result text `Error: ...`), then append the
assistant turn and the single tool-result turn. -/
def agentStep (fetches : Nat → FetchResult) (st : LoopState) (respContent : List Block)
    (id : String) (input : ToolInput) : LoopState :=
  let fetch := fetches st.searchQueries.length
  let toolOut :=
    match executeWebSearchTool input fetch with
    | Except.ok s => s
    | Except.error e => "Error: " ++ e
  { msgs := st.msgs ++
      [{ role := "assistant", content := respContent },
       { role := "user", content := [Block.toolResult id toolOut] }]
    modelCalls := st.modelCalls
    searchQueries := st.searchQueries ++ [input.query] }

/-- The bounded agent loop (`while (iteration < maxIterations)`), structural
on the remaining iteration budget. A reply with a tool-use block leads to
`agentStep` and another round-trip; otherwise the first text block goes
through fence stripping and `JSON.parse`; JSON failure is the thrown
`Failed to parse response` error; a reply with neither block kind is the
thrown `Unexpected response format` error. -/
def agentLoop (model : List Msg → ModelResponse) (fetches : Nat → FetchResult) :
    Nat → LoopState → AgentOutcome × LoopState
  | 0, st => (AgentOutcome.loopExceeded, st)
  | rem + 1, st =>
    let resp := model st.msgs
    let st1 : LoopState := { st with modelCalls := st.modelCalls + 1 }
    match findToolUse resp.content with
    | some (id, _nm, input) =>
      agentLoop model fetches rem (agentStep fetches st1 resp.content id input)
    | none =>
      match findTextBlock resp.content with
      | some t =>
        match parseJson (stripFence t) with
        | some v => (AgentOutcome.success v, st1)
        | none => (AgentOutcome.malformedOutput ("Failed to parse response: invalid JSON"), st1)
      | none => (AgentOutcome.unexpectedFormat, st1)

/-- The configured iteration bound of `agent.ts`. -/
def maxIterations : Nat := 10

/-- The streaming agent run: the initial conversation is the single user
prompt, and the loop runs under the configured bound. -/
def findWeekendActivitiesStreaming (model : List Msg → ModelResponse)
    (fetches : Nat → FetchResult) (request : SearchRequest) : AgentOutcome × LoopState :=
  agentLoop model fetches maxIterations
    { msgs := [{ role := "user", content := [Block.text (generateUserPrompt request)] }]
      modelCalls := 0
      searchQueries := [] }

/-! ## Cache store and cost model (`src/lib/cache/manager.ts`)

`Date` values are millisecond timestamps (`Nat`); the `search_cache` table is
a list of rows in insertion order with a `serial` id counter; the unique
constraint on `cache_key` (schema.ts) is enforced on insert. -/

/-- The fixed cache TTL of `manager.ts`: 48 hours in milliseconds. -/
def CACHE_TTL_MS : Nat := 48 * 60 * 60 * 1000

/-- The cost breakdown of `calculateCost`. -/
structure CostBreakdown where
  claudeCost : ℚ
  serperCost : ℚ
  total : ℚ
deriving DecidableEq

/-- The metadata stored with cached results (`CacheMetadata`). -/
structure CacheMetadata where
  promptTokens : Option Nat
  completionTokens : Option Nat
  searchCount : Nat
  model : String
  estimatedCost : ℚ
  costBreakdown : CostBreakdown
  executionTimeMs : Nat
deriving DecidableEq

/-- One row of the `search_cache` table. -/
structure CacheRow where
  id : Nat
  userId : Nat
  cacheKey : String
  city : String
  dateRangeStart : String
  dateRangeEnd : String
  attendees : String
  preferences : Option String
  recommendations : Jsonv
  agentMetadata : CacheMetadata
  expiresAt : Nat
  accessCount : Nat
  createdAt : Nat
  updatedAt : Nat

/-- The database: the cache table in insertion order plus the next serial id. -/
structure Db where
  rows : List CacheRow
  nextId : Nat

/-- The row filter of the lookup query: matching key and user, and
`gte(expiresAt, now)` — expiry at or after the current instant. -/
def rowMatches (key : String) (userId now : Nat) (r : CacheRow) : Bool :=
  r.cacheKey == key && r.userId == userId && decide (now ≤ r.expiresAt)

/-- The select of `getCachedSearch` (`.where(...).limit(1)`): the first
matching row in table order. This is the read half of the read-then-write
access-count update. -/
def lookupSelect (db : Db) (key : String) (userId now : Nat) : Option CacheRow :=
  (db.rows.filter (rowMatches key userId now)).head?

/-- The update of `getCachedSearch`: set the matched row's `accessCount` to
the previously read value plus one and touch `updatedAt`. This is the write
half of the read-then-write pair — the new count is computed from the value
read by the select, not atomically in the statement. -/
def updateAccess (db : Db) (rowId readCount now : Nat) : Db :=
  { db with rows := db.rows.map (fun r =>
      if r.id == rowId then { r with accessCount := readCount + 1, updatedAt := now } else r) }

/-- The hit payload returned by `getCachedSearch`; the constant `cached: true`
tag is omitted. -/
structure CachedSearchResult where
  id : Nat
  recommendations : Jsonv
  metadata : CacheMetadata
  accessCount : Nat
  createdAt : Nat
  expiresAt : Nat

/-- Cache lookup (`getCachedSearch`): compute the fingerprint, select, and on
a hit perform the access-statistics update and report the read count plus
one; on a miss return `none` leaving the table untouched. -/
def getCachedSearch (db : Db) (params : SearchRequest) (userId now : Nat) :
    Option CachedSearchResult × Db :=
  let cacheKey := generateCacheKey params userId
  match lookupSelect db cacheKey userId now with
  | none => (none, db)
  | some cached =>
    (some { id := cached.id, recommendations := cached.recommendations,
            metadata := cached.agentMetadata, accessCount := cached.accessCount + 1,
            createdAt := cached.createdAt, expiresAt := cached.expiresAt },
     updateAccess db cached.id cached.accessCount now)

/-- A storage-layer constraint violation. -/
inductive DbError where
  | uniqueViolation
deriving DecidableEq

/-- The display serialization of attendees used on store:
`role (age years)` joined by comma-space. -/
def attendeesText (l : List Attendee) : String :=
  joinCommaSpace (l.map (fun a => a.role ++ " (" ++ toString a.age ++ " years)"))

/-- Cache store (`storeSearchResults`): compute the fingerprint and
`expiresAt = now + TTL`, then insert a fresh row with `accessCount = 1`. The
unique constraint on `cache_key` makes a second insert for a present key a
uniqueness-violation failure. `preferences || null` nulls an empty string. -/
def storeSearchResults (db : Db) (params : SearchRequest) (recommendations : Jsonv)
    (userId : Nat) (metadata : CacheMetadata) (now : Nat) : Except DbError (Nat × Db) :=
  let cacheKey := generateCacheKey params userId
  let expiresAt := now + CACHE_TTL_MS
  if db.rows.any (fun r => r.cacheKey == cacheKey) then
    Except.error DbError.uniqueViolation
  else
    Except.ok (db.nextId,
      { rows := db.rows ++
          [{ id := db.nextId, userId := userId, cacheKey := cacheKey,
             city := params.city, dateRangeStart := params.dateRangeStart,
             dateRangeEnd := params.dateRangeEnd,
             attendees := attendeesText params.attendees,
             preferences :=
               (match params.preferences with
                | some p => if p = "" then none else some p
                | none => none),
             recommendations := recommendations, agentMetadata := metadata,
             expiresAt := expiresAt, accessCount := 1, createdAt := now, updatedAt := now }],
        nextId := db.nextId + 1 })

/-- Rounding to six decimal places, the `Number(x.toFixed(6))` of the source;
all amounts here are nonnegative, where `toFixed` rounds half up. -/
def round6 (q : ℚ) : ℚ := (⌊q * 1000000 + 1 / 2⌋ : ℚ) / 1000000

/-- Input-token price: 0.80 dollars per million tokens. -/
def INPUT_TOKEN_COST : ℚ := (80 / 100) / 1000000

/-- Output-token price: 4.00 dollars per million tokens. -/
def OUTPUT_TOKEN_COST : ℚ := 4 / 1000000

/-- Serper price: 0.001 dollars per search. -/
def SERPER_SEARCH_COST : ℚ := 1 / 1000

/-- The result shape of `calculateCost`. -/
structure CostResult where
  total : ℚ
  breakdown : CostBreakdown
deriving DecidableEq

/-- The pure cost model (`calculateCost`): token cost plus search cost, each
output rounded to six decimals. -/
def calculateCost (promptTokens completionTokens searchCount : Nat) : CostResult :=
  let claudeCost : ℚ :=
    (promptTokens : ℚ) * INPUT_TOKEN_COST + (completionTokens : ℚ) * OUTPUT_TOKEN_COST
  let serperCost : ℚ := (searchCount : ℚ) * SERPER_SEARCH_COST
  let total := claudeCost + serperCost
  { total := round6 total,
    breakdown :=
      { claudeCost := round6 claudeCost, serperCost := round6 serperCost,
        total := round6 total } }

/-- The projection returned by `getUserSearchHistory`'s select. -/
structure HistoryEntry where
  id : Nat
  city : String
  dateRangeStart : String
  dateRangeEnd : String
  attendees : String
  preferences : Option String
  createdAt : Nat
  expiresAt : Nat
  accessCount : Nat
deriving DecidableEq

/-- Stable insertion for the ascending `createdAt` order. -/
def insertByCreatedAt (r : CacheRow) : List CacheRow → List CacheRow
  | [] => [r]
  | b :: rest =>
    if b.createdAt < r.createdAt then b :: insertByCreatedAt r rest else r :: b :: rest

/-- Sort by ascending `createdAt`: drizzle's `orderBy(searchCache.createdAt)`
with a bare column is ascending order. -/
def sortByCreatedAt : List CacheRow → List CacheRow
  | [] => []
  | r :: rest => insertByCreatedAt r (sortByCreatedAt rest)

/-- Search history (`getUserSearchHistory`): the user's rows ordered by the
query's `orderBy(createdAt)` (ascending), limited, and projected; the table
is not modified. The source's default limit is 10. -/
def getUserSearchHistory (db : Db) (userId : Nat) (limit : Nat) : List HistoryEntry :=
  ((sortByCreatedAt (db.rows.filter (fun r => r.userId == userId))).take limit).map
    (fun r => { id := r.id, city := r.city, dateRangeStart := r.dateRangeStart,
                dateRangeEnd := r.dateRangeEnd, attendees := r.attendees,
                preferences := r.preferences, createdAt := r.createdAt,
                expiresAt := r.expiresAt, accessCount := r.accessCount })

/-! ## The search endpoint core (`POST /api/search`, stream body)

The region after validation: cache check, agent run on a miss, cost and
metadata assembly, cache store, and the catch-all that turns any thrown
error into an SSE error event. The agent's `complete` event carries no
usage field, so the handler's `agentUsage` keeps its initial zeros;
wall-clock `executionTimeMs` is abstracted to zero. -/

/-- The terminal SSE event of one request. -/
inductive SseOutcome where
  | completeCached (recommendations : Jsonv) (accessCount : Nat)
  | completeFresh (recommendations : Jsonv) (cacheId : Nat)
  | errorEvent (msg : String)

/-- The model identifier written into stored metadata. -/
def agentModelName : String := "claude-haiku-4-5-20251001"

/-- The handler core: on a cache hit emit the cached payload; on a miss run
the agent; on agent success store and emit fresh; any thrown error (agent
failure or store failure) becomes an error event and leaves the table as the
lookup left it. -/
def handleSearch (model : List Msg → ModelResponse) (fetches : Nat → FetchResult)
    (db : Db) (params : SearchRequest) (userId now : Nat) : SseOutcome × Db :=
  match getCachedSearch db params userId now with
  | (some cached, db1) => (SseOutcome.completeCached cached.recommendations cached.accessCount, db1)
  | (none, db1) =>
    match findWeekendActivitiesStreaming model fetches params with
    | (AgentOutcome.success recs, _st) =>
      let costData := calculateCost 0 0 0
      let metadata : CacheMetadata :=
        { promptTokens := some 0, completionTokens := some 0, searchCount := 0,
          model := agentModelName, estimatedCost := costData.total,
          costBreakdown := costData.breakdown, executionTimeMs := 0 }
      match storeSearchResults db1 params recs userId metadata now with
      | Except.ok (cacheId, db2) => (SseOutcome.completeFresh recs cacheId, db2)
      | Except.error _ => (SseOutcome.errorEvent ("duplicate key value violates unique constraint"), db1)
    | (AgentOutcome.malformedOutput m, _st) => (SseOutcome.errorEvent m, db1)
    | (AgentOutcome.unexpectedFormat, _st) => (SseOutcome.errorEvent ("Unexpected response format"), db1)
    | (AgentOutcome.loopExceeded, _st) =>
      (SseOutcome.errorEvent ("Agent exceeded max iterations (10)"), db1)

/-- Modelled from the spec: the output shape claim C5 says the parse step
validates — a `recommendations` list present. Stated here only to compare the
code's behavior against the claim; the code performs no such check. -/
def specRequiredShape (v : Jsonv) : Bool :=
  match v with
  | Jsonv.obj fields =>
    fields.any (fun f =>
      f.1 == "recommendations" &&
      (match f.2 with
       | Jsonv.arr _ => true
       | _ => false))
  | _ => false

/-- The row a successful `storeSearchResults` inserts, named for the proofs
about the store; identical to the values-clause of the insert. -/
def insertedRow (db : Db) (params : SearchRequest) (recs : Jsonv) (userId : Nat)
    (meta : CacheMetadata) (now : Nat) : CacheRow :=
  { id := db.nextId, userId := userId, cacheKey := generateCacheKey params userId,
    city := params.city, dateRangeStart := params.dateRangeStart,
    dateRangeEnd := params.dateRangeEnd, attendees := attendeesText params.attendees,
    preferences :=
      (match params.preferences with
       | some p => if p = "" then none else some p
       | none => none),
    recommendations := recs, agentMetadata := meta,
    expiresAt := now + CACHE_TTL_MS, accessCount := 1, createdAt := now, updatedAt := now }

/-- The table state after a successful `storeSearchResults`. -/
def insertedDb (db : Db) (params : SearchRequest) (recs : Jsonv) (userId : Nat)
    (meta : CacheMetadata) (now : Nat) : Db :=
  { rows := db.rows ++ [insertedRow db params recs userId meta now],
    nextId := db.nextId + 1 }

/-! ## Concrete fixtures used by witnesses and counterexamples -/

/-- A validated request in the shape of the end-to-end scenario. -/
def reqA : SearchRequest :=
  { city := "Krakow", dateRangeStart := "2025-11-01", dateRangeEnd := "2025-11-02",
    attendees := [{ age := 5, role := "child" }, { age := 34, role := "adult" }],
    preferences := some "indoor" }

/-- A concrete stored-metadata value. -/
def metaA : CacheMetadata :=
  { promptTokens := some 0, completionTokens := some 0, searchCount := 0,
    model := agentModelName, estimatedCost := 0,
    costBreakdown := { claudeCost := 0, serperCost := 0, total := 0 },
    executionTimeMs := 0 }

/-- A stub model that replies with a tool invocation on every round-trip. -/
def alwaysToolModel : List Msg → ModelResponse :=
  fun _ => { content := [Block.toolUse ("toolu_1") ("web_search")
    { query := "playgrounds Krakow", numResults := none }] }

/-- A fetch oracle on which every search transport fails. -/
def noFetch : Nat → FetchResult :=
  fun _ => FetchResult.netFailure ("connection refused")

/-- A stub model that requests one search on the first round-trip and then
finalizes with a well-formed JSON reply. -/
def twoStepModel : List Msg → ModelResponse :=
  fun msgs =>
    if msgs.length ≤ 1 then
      { content := [Block.toolUse ("toolu_1") ("web_search")
          { query := "parks Krakow", numResults := none }] }
    else
      { content := [Block.text ("\x7b\"searchSummary\":\"s\",\"recommendations\":[]\x7d")] }

/-- A stub model whose final (and only) reply is valid JSON that lacks the
required recommendations shape. -/
def badShapeModel : List Msg → ModelResponse :=
  fun _ => { content := [Block.text ("\x7b\"foo\": 1\x7d")] }

/-- A stub model whose final (and only) reply is plain non-JSON prose. -/
def plainTextModel : List Msg → ModelResponse :=
  fun _ => { content := [Block.text ("Here are your recommendations!")] }

/-- A stub model whose reply carries two tool-use blocks in one turn. -/
def twoToolModel : List Msg → ModelResponse :=
  fun _ => { content :=
    [Block.toolUse ("toolu_1") ("web_search") { query := "first query", numResults := none },
     Block.toolUse ("toolu_2") ("web_search") { query := "second query", numResults := none }] }

/-- An empty loop state. -/
def stA : LoopState := { msgs := [], modelCalls := 0, searchQueries := [] }

/-- A stored row for `reqA` of user 1 whose validity ends at instant 1000. -/
def rowC3 : CacheRow :=
  { id := 1, userId := 1, cacheKey := generateCacheKey reqA 1, city := "Krakow",
    dateRangeStart := "2025-11-01", dateRangeEnd := "2025-11-02",
    attendees := attendeesText reqA.attendees, preferences := some "indoor",
    recommendations := Jsonv.arr [], agentMetadata := metaA,
    expiresAt := 1000, accessCount := 1, createdAt := 0, updatedAt := 0 }

/-- An older history row of user 1, created at instant 100. -/
def rowOld : CacheRow :=
  { id := 1, userId := 1, cacheKey := "k1", city := "Krakow",
    dateRangeStart := "2025-11-01", dateRangeEnd := "2025-11-02",
    attendees := "child (5 years)", preferences := none,
    recommendations := Jsonv.arr [], agentMetadata := metaA,
    expiresAt := 400, accessCount := 1, createdAt := 100, updatedAt := 100 }

/-- A newer history row of user 1, created at instant 200. -/
def rowNew : CacheRow :=
  { id := 2, userId := 1, cacheKey := "k2", city := "Gdansk",
    dateRangeStart := "2025-11-08", dateRangeEnd := "2025-11-09",
    attendees := "adult (30 years)", preferences := none,
    recommendations := Jsonv.arr [], agentMetadata := metaA,
    expiresAt := 500, accessCount := 1, createdAt := 200, updatedAt := 200 }

/-- A valid row under the literal key k, used for the storage-level schedules. -/
def rowC8 : CacheRow :=
  { id := 1, userId := 1, cacheKey := "k", city := "Krakow",
    dateRangeStart := "2025-11-01", dateRangeEnd := "2025-11-02",
    attendees := "child (5 years)", preferences := none,
    recommendations := Jsonv.arr [], agentMetadata := metaA,
    expiresAt := 100, accessCount := 1, createdAt := 0, updatedAt := 0 }

/-- The single-row table holding `rowC8`. -/
def dbC8 : Db := { rows := [rowC8], nextId := 2 }

/-- A request with two equal-age attendees. -/
def reqEqAges : SearchRequest :=
  { city := "Krakow", dateRangeStart := "2025-11-01", dateRangeEnd := "2025-11-02",
    attendees := [{ age := 5, role := "child" }, { age := 5, role := "adult" }],
    preferences := none }

/-- The same request with the two equal-age attendees reordered. -/
def reqEqAgesSwapped : SearchRequest :=
  { city := "Krakow", dateRangeStart := "2025-11-01", dateRangeEnd := "2025-11-02",
    attendees := [{ age := 5, role := "adult" }, { age := 5, role := "child" }],
    preferences := none }

/-- A request equivalent to `reqA` up to case, outer whitespace, attendee
order (distinct ages), and an absent-versus-empty preferences field. -/
def reqANoisy : SearchRequest :=
  { city := " KRAKOW ", dateRangeStart := "2025-11-01", dateRangeEnd := "2025-11-02",
    attendees := [{ age := 34, role := "Adult" }, { age := 5, role := "CHILD" }],
    preferences := some "  INDOOR " }

/-! ## Theorems -/

/-- C7: `getUserSearchHistory` orders by `createdAt` ascending (drizzle's bare
`orderBy` column), so for a user with entries created at instants 100 and 200,
limit 1 returns the entry created at 100 — the oldest, not the newest — and
limit 2 returns them oldest first, contradicting the function's own
newest-first documentation; the call mutates nothing in the model. -/
theorem history_ascending_oldest_first :
    ((getUserSearchHistory { rows := [rowOld, rowNew], nextId := 3 } 1 1).map
        (fun e => e.createdAt) = [100]) ∧
    ((getUserSearchHistory { rows := [rowOld, rowNew], nextId := 3 } 1 2).map
        (fun e => e.createdAt) = [100, 200]) := by decide

/-- C8 counterexample: with the row's access count at 1, interleaving the read
halves of two lookups before their write halves (both reads return count 1)
leaves the final count at 2, not the 3 = 1 + 2 that the no-lost-update
property demands for two successful lookups. -/
theorem access_lost_update_counterexample :
    ((lookupSelect dbC8 ("k") 1 5).map (fun r => (r.id, r.accessCount)) = some (1, 1)) ∧
    ((updateAccess (updateAccess dbC8 1 1 5) 1 1 5).rows.map
        (fun r => r.accessCount) = [2]) ∧
    (2 : Nat) ≠ 1 + 2 := by decide

/-- C6 counterexample: when the only search call fails at the transport layer
(connection refused), the agent loop absorbs it into a tool-result turn
carrying the error text and continues to a successful second round-trip — a
hard transport failure is not treated as fatal to the call. -/
theorem transport_failure_absorbed_counterexample :
    (((findWeekendActivitiesStreaming twoStepModel noFetch reqA).2).msgs.contains
      { role := "user", content := [Block.toolResult ("toolu_1")
          ("Error: Serper API request failed: connection refused")] } = true) ∧
    ((match (findWeekendActivitiesStreaming twoStepModel noFetch reqA).1 with
      | AgentOutcome.success _ => true
      | _ => false) = true) ∧
    ((findWeekendActivitiesStreaming twoStepModel noFetch reqA).2).modelCalls = 2 := by decide

/-- C5 counterexample: a final reply that is valid JSON without the required
recommendations shape is accepted — the run returns successfully and the
handler performs the cache store — although the text does not parse as the
required structured schema. -/
theorem parse_shape_unvalidated_counterexample :
    ((match (findWeekendActivitiesStreaming badShapeModel noFetch reqA).1 with
      | AgentOutcome.success v => !(specRequiredShape v)
      | _ => false) = true) ∧
    ((match handleSearch badShapeModel noFetch { rows := [], nextId := 1 } reqA 1 1000 with
      | (SseOutcome.completeFresh _ _, db2) => db2.rows.length == 1
      | _ => false) = true) := by decide

/-- C1 counterexample: swapping two equal-age attendees changes the
fingerprint, because the normalization sorts stably by age alone and so
preserves the input order of equal-age attendees in the serialized form. -/
theorem fingerprint_equal_age_reorder_counterexample :
    generateCacheKey reqEqAges 1 ≠ generateCacheKey reqEqAgesSwapped 1 := by decide

/-- Monotonicity of the six-decimal rounding. -/
theorem round6_mono {a b : ℚ} (h : a ≤ b) : round6 a ≤ round6 b := by
  unfold round6
  have h2 : (⌊a * 1000000 + 1 / 2⌋ : ℤ) ≤ ⌊b * 1000000 + 1 / 2⌋ :=
    Int.floor_le_floor (by linarith)
  have h3 : ((⌊a * 1000000 + 1 / 2⌋ : ℤ) : ℚ) ≤ ((⌊b * 1000000 + 1 / 2⌋ : ℤ) : ℚ) := by
    exact_mod_cast h2
  linarith

/-- C9: increasing any one of the raw counters — prompt tokens, completion
tokens, or search count — while holding the other two fixed never decreases
the total returned by `calculateCost`. -/
theorem cost_total_monotone (p p' c c' s s' : Nat) :
    (p ≤ p' → (calculateCost p c s).total ≤ (calculateCost p' c s).total) ∧
    (c ≤ c' → (calculateCost p c s).total ≤ (calculateCost p c' s).total) ∧
    (s ≤ s' → (calculateCost p c s).total ≤ (calculateCost p c s').total) := by
  refine ⟨fun h => round6_mono ?_, fun h => round6_mono ?_, fun h => round6_mono ?_⟩ <;>
    [have hq : (p : ℚ) ≤ (p' : ℚ) := Nat.cast_le.mpr h;
     have hq : (c : ℚ) ≤ (c' : ℚ) := Nat.cast_le.mpr h;
     have hq : (s : ℚ) ≤ (s' : ℚ) := Nat.cast_le.mpr h] <;>
    · simp only [INPUT_TOKEN_COST, OUTPUT_TOKEN_COST, SERPER_SEARCH_COST]
      linarith

/-- C9 witness: the first conjunct applied at concrete counters. -/
theorem cost_total_monotone_witness :
    (1 : Nat) ≤ 2 ∧ (calculateCost 1 5 7).total ≤ (calculateCost 2 5 7).total :=
  ⟨by decide, (cost_total_monotone 1 2 5 5 7 7).1 (by decide)⟩

/-- The loop never performs more model calls than its remaining budget. -/
theorem agentLoop_modelCalls_le (model : List Msg → ModelResponse)
    (fetches : Nat → FetchResult) (rem : Nat) (st : LoopState) :
    ((agentLoop model fetches rem st).2).modelCalls ≤ st.modelCalls + rem := by
  induction rem generalizing st with
  | zero => simp [agentLoop]
  | succ n ih =>
    unfold agentLoop
    cases hfu : findToolUse (model st.msgs).content with
    | some v =>
      obtain ⟨id, nm, inp⟩ := v
      simp only [hfu]
      have hrec := ih (agentStep fetches { st with modelCalls := st.modelCalls + 1 }
        (model st.msgs).content id inp)
      have hmc : (agentStep fetches { st with modelCalls := st.modelCalls + 1 }
          (model st.msgs).content id inp).modelCalls = st.modelCalls + 1 := rfl
      rw [hmc] at hrec
      omega
    | none =>
      cases hft : findTextBlock (model st.msgs).content with
      | some t =>
        cases hp : parseJson (stripFence t) with
        | some v => simp [hfu, hft, hp]
        | none => simp [hfu, hft, hp]
      | none => simp [hfu, hft]

/-- Under a model that always requests a tool, the loop spends its whole
budget and ends exceeded. -/
theorem agentLoop_allTools (model : List Msg → ModelResponse) (fetches : Nat → FetchResult)
    (h : ∀ msgs, (findToolUse (model msgs).content).isSome = true) (rem : Nat) (st : LoopState) :
    (agentLoop model fetches rem st).1 = AgentOutcome.loopExceeded ∧
    ((agentLoop model fetches rem st).2).modelCalls = st.modelCalls + rem := by
  induction rem generalizing st with
  | zero => simp [agentLoop]
  | succ n ih =>
    unfold agentLoop
    obtain ⟨⟨id, nm, inp⟩, hfu⟩ := Option.isSome_iff_exists.mp (h st.msgs)
    simp only [hfu]
    have hrec := ih (agentStep fetches { st with modelCalls := st.modelCalls + 1 }
      (model st.msgs).content id inp)
    have hmc : (agentStep fetches { st with modelCalls := st.modelCalls + 1 }
        (model st.msgs).content id inp).modelCalls = st.modelCalls + 1 := rfl
    rw [hmc] at hrec
    exact ⟨hrec.1, by omega⟩

/-- C4: with a stub model that replies with a tool invocation on every
round-trip, the run performs exactly the configured maximum of ten model
round-trips and then fails with the loop-exceeded condition; and no run,
whatever the model, performs more than ten round-trips. -/
theorem agent_loop_termination (model : List Msg → ModelResponse)
    (fetches : Nat → FetchResult) (request : SearchRequest)
    (halways : ∀ msgs, (findToolUse (model msgs).content).isSome = true) :
    (findWeekendActivitiesStreaming model fetches request).1 = AgentOutcome.loopExceeded ∧
    ((findWeekendActivitiesStreaming model fetches request).2).modelCalls = 10 ∧
    ∀ (model2 : List Msg → ModelResponse) (fetches2 : Nat → FetchResult)
      (request2 : SearchRequest),
      ((findWeekendActivitiesStreaming model2 fetches2 request2).2).modelCalls ≤ 10 := by
  have h1 := agentLoop_allTools model fetches halways maxIterations
    { msgs := [{ role := "user", content := [Block.text (generateUserPrompt request)] }]
      modelCalls := 0, searchQueries := [] }
  refine ⟨h1.1, ?_, fun model2 fetches2 request2 => ?_⟩
  · simpa [maxIterations] using h1.2
  · have h2 := agentLoop_modelCalls_le model2 fetches2 maxIterations
      { msgs := [{ role := "user", content := [Block.text (generateUserPrompt request2)] }]
        modelCalls := 0, searchQueries := [] }
    simpa [maxIterations] using h2

/-- C4 witness: the termination theorem applied to the always-tool stub. -/
theorem agent_loop_termination_witness :
    (∀ msgs, (findToolUse (alwaysToolModel msgs).content).isSome = true) ∧
    (findWeekendActivitiesStreaming alwaysToolModel noFetch reqA).1 = AgentOutcome.loopExceeded ∧
    ((findWeekendActivitiesStreaming alwaysToolModel noFetch reqA).2).modelCalls = 10 :=
  ⟨fun _ => rfl,
   (agent_loop_termination alwaysToolModel noFetch reqA (fun _ => rfl)).1,
   (agent_loop_termination alwaysToolModel noFetch reqA (fun _ => rfl)).2.1⟩

/-- The find over content blocks returns the first tool-use block. -/
theorem findToolUse_append_first (pre post : List Block) (id nm : String) (inp : ToolInput)
    (hpre : findToolUse pre = none) :
    findToolUse (pre ++ Block.toolUse id nm inp :: post) = some (id, nm, inp) := by
  induction pre with
  | nil => rfl
  | cons b rest ih =>
    cases b with
    | text s =>
      simp only [findToolUse] at hpre
      simpa only [List.cons_append, findToolUse] using ih hpre
    | toolUse a b c => simp [findToolUse] at hpre
    | toolResult a b =>
      simp only [findToolUse] at hpre
      simpa only [List.cons_append, findToolUse] using ih hpre

/-- C10: when a reply's content contains one or more tool-use blocks, the
iteration resolves the first one, executes only its query, and appends to the
conversation exactly the assistant turn plus one tool-result turn answering
that first block's id; no further tool-use block of the reply is executed or
answered. -/
theorem first_tool_use_only (model : List Msg → ModelResponse) (fetches : Nat → FetchResult)
    (st : LoopState) (rem : Nat) (pre post : List Block) (id nm : String) (inp : ToolInput)
    (hpre : findToolUse pre = none)
    (hresp : (model st.msgs).content = pre ++ Block.toolUse id nm inp :: post) :
    findToolUse (model st.msgs).content = some (id, nm, inp) ∧
    agentLoop model fetches (rem + 1) st =
      agentLoop model fetches rem
        (agentStep fetches { st with modelCalls := st.modelCalls + 1 }
          (model st.msgs).content id inp) ∧
    (∃ resultText,
      (agentStep fetches { st with modelCalls := st.modelCalls + 1 }
          (model st.msgs).content id inp).msgs =
        st.msgs ++ [{ role := "assistant", content := (model st.msgs).content },
          { role := "user", content := [Block.toolResult id resultText] }]) ∧
    (agentStep fetches { st with modelCalls := st.modelCalls + 1 }
        (model st.msgs).content id inp).searchQueries = st.searchQueries ++ [inp.query] := by
  have hfu : findToolUse (model st.msgs).content = some (id, nm, inp) := by
    rw [hresp]; exact findToolUse_append_first pre post id nm inp hpre
  refine ⟨hfu, ?_, ⟨_, rfl⟩, rfl⟩
  conv_lhs => unfold agentLoop
  simp only [hfu]

/-- C10 witness: a reply carrying two tool-use blocks; only the first is
found and only its query is executed. -/
theorem first_tool_use_only_witness :
    findToolUse ([] : List Block) = none ∧
    findToolUse (twoToolModel stA.msgs).content =
      some ("toolu_1", "web_search", { query := "first query", numResults := none }) ∧
    (agentStep noFetch { stA with modelCalls := stA.modelCalls + 1 }
        (twoToolModel stA.msgs).content ("toolu_1")
        { query := "first query", numResults := none }).searchQueries =
      stA.searchQueries ++ ["first query"] :=
  ⟨rfl,
   (first_tool_use_only twoToolModel noFetch stA 0 []
      [Block.toolUse ("toolu_2") ("web_search") { query := "second query", numResults := none }]
      ("toolu_1") ("web_search") { query := "first query", numResults := none } rfl rfl).1,
   (first_tool_use_only twoToolModel noFetch stA 0 []
      [Block.toolUse ("toolu_2") ("web_search") { query := "second query", numResults := none }]
      ("toolu_1") ("web_search") { query := "first query", numResults := none } rfl rfl).2.2.2⟩

/-- C2: storing a fresh result (into a table with no row for this
fingerprint, the lookup-before-store contract) inserts a row with access
count one and expiry at now plus the 48-hour TTL, and an immediate lookup of
the same request by the same user is a hit whose recommendations equal the
stored result and whose reported access count is two. -/
theorem cache_store_lookup_roundtrip (db : Db) (params : SearchRequest) (recs : Jsonv)
    (userId : Nat) (meta : CacheMetadata) (now : Nat)
    (hfresh : ∀ r ∈ db.rows, r.cacheKey ≠ generateCacheKey params userId) :
    ∃ db1 : Db,
      storeSearchResults db params recs userId meta now = Except.ok (db.nextId, db1) ∧
      (∃ r ∈ db1.rows, r.id = db.nextId ∧ r.accessCount = 1 ∧
        r.expiresAt = now + 48 * 60 * 60 * 1000 ∧ r.recommendations = recs) ∧
      ∃ hit db2, getCachedSearch db1 params userId now = (some hit, db2) ∧
        hit.recommendations = recs ∧ hit.accessCount = 2 := by
  have hany : (db.rows.any (fun r => r.cacheKey == generateCacheKey params userId)) = false := by
    rw [List.any_eq_false]
    intro r hr
    simpa using hfresh r hr
  refine ⟨insertedDb db params recs userId meta now, ?_, ?_, ?_⟩
  · simp only [storeSearchResults, hany]
    rfl
  · exact ⟨insertedRow db params recs userId meta now, by simp [insertedDb], rfl, rfl, rfl, rfl⟩
  · have hsel : lookupSelect (insertedDb db params recs userId meta now)
        (generateCacheKey params userId) userId now =
        some (insertedRow db params recs userId meta now) := by
      unfold lookupSelect insertedDb
      rw [List.filter_append]
      have hnil : db.rows.filter (rowMatches (generateCacheKey params userId) userId now) = [] := by
        rw [List.filter_eq_nil_iff]
        intro r hr
        simp [rowMatches, hfresh r hr]
      rw [hnil]
      simp [rowMatches, insertedRow, Nat.le_add_right]
    simp only [getCachedSearch, hsel]
    exact ⟨_, _, rfl, rfl, rfl⟩

/-- C2 witness: the round-trip theorem at a concrete empty table. -/
theorem cache_store_lookup_roundtrip_witness :
    (∀ r ∈ (({ rows := [], nextId := 1 } : Db)).rows,
      r.cacheKey ≠ generateCacheKey reqA 1) ∧
    ∃ db1 : Db,
      storeSearchResults { rows := [], nextId := 1 } reqA (Jsonv.arr []) 1 metaA 1000 =
        Except.ok (1, db1) ∧
      (∃ r ∈ db1.rows, r.id = 1 ∧ r.accessCount = 1 ∧
        r.expiresAt = 1000 + 48 * 60 * 60 * 1000 ∧ r.recommendations = Jsonv.arr []) ∧
      ∃ hit db2, getCachedSearch db1 reqA 1 1000 = (some hit, db2) ∧
        hit.recommendations = Jsonv.arr [] ∧ hit.accessCount = 2 :=
  ⟨by simp, cache_store_lookup_roundtrip { rows := [], nextId := 1 } reqA (Jsonv.arr []) 1 metaA 1000
    (by simp)⟩

/-- C3 amended: for a stored entry matching the request's fingerprint and
user, the lookup is a hit exactly when the current time is at or before the
entry's expiry (the query uses at-or-after, not strictly-in-the-future, so a
lookup at the very expiry instant still hits); in particular an entry expired
one second ago is a miss and an entry expiring one second from now is a hit. -/
theorem lookup_expiry_boundary (r : CacheRow) (n : Nat) (params : SearchRequest)
    (userId now : Nat)
    (hkey : r.cacheKey = generateCacheKey params userId) (huser : r.userId = userId) :
    (((getCachedSearch { rows := [r], nextId := n } params userId now).1.isSome = true) ↔
      now ≤ r.expiresAt) ∧
    ((getCachedSearch { rows := [r], nextId := n } params userId
        (r.expiresAt + 1000)).1.isSome = false) ∧
    (∀ now2, r.expiresAt = now2 + 1000 →
      (getCachedSearch { rows := [r], nextId := n } params userId now2).1.isSome = true) := by
  have main : ∀ now2, (((getCachedSearch { rows := [r], nextId := n } params userId
      now2).1.isSome = true) ↔ now2 ≤ r.expiresAt) := by
    intro now2
    by_cases hle : now2 ≤ r.expiresAt
    · simp [getCachedSearch, lookupSelect, List.filter, rowMatches, hkey, huser, hle]
    · simp [getCachedSearch, lookupSelect, List.filter, rowMatches, hkey, huser, hle]
  refine ⟨main now, ?_, fun now2 h => (main now2).mpr (by omega)⟩
  have h2 := main (r.expiresAt + 1000)
  rcases hb : (getCachedSearch { rows := [r], nextId := n } params userId
      (r.expiresAt + 1000)).1.isSome with _ | _
  · rfl
  · have := h2.mp hb
    omega

/-- C3 counterexample: at a lookup instant exactly equal to the row's expiry
— an expiry not strictly in the future — the lookup is nevertheless a hit,
because the query compares with at-or-after. -/
theorem lookup_expiry_at_now_counterexample :
    ((getCachedSearch { rows := [rowC3], nextId := 2 } reqA 1 1000).1.isSome = true) ∧
    ¬(1000 < rowC3.expiresAt) := by
  constructor
  · simp [getCachedSearch, lookupSelect, List.filter, rowMatches, rowC3]
  · decide

/-- C3 witness: the boundary theorem at the concrete stored row. -/
theorem lookup_expiry_boundary_witness :
    rowC3.cacheKey = generateCacheKey reqA 1 ∧
    (((getCachedSearch { rows := [rowC3], nextId := 2 } reqA 1 500).1.isSome = true) ↔
      500 ≤ rowC3.expiresAt) :=
  ⟨rfl, (lookup_expiry_boundary rowC3 2 reqA 1 500 rfl rfl).1⟩

/-- C8 amended: the access-count increment of a lookup is a read-then-write
pair — the select reads the count, the update writes that read value plus
one. Sequential lookups therefore accumulate (two lookups raise the count by
two), but interleaving the two reads before the two writes loses an update:
the final count is the initial count plus one, not plus two. -/
theorem access_increment_read_then_write (r : CacheRow) (n : Nat) (params : SearchRequest)
    (userId now : Nat)
    (hkey : r.cacheKey = generateCacheKey params userId) (huser : r.userId = userId)
    (hvalid : now ≤ r.expiresAt) :
    lookupSelect { rows := [r], nextId := n } (generateCacheKey params userId) userId now =
      some r ∧
    ((updateAccess (updateAccess { rows := [r], nextId := n } r.id r.accessCount now)
        r.id r.accessCount now).rows.map (fun x => x.accessCount)) = [r.accessCount + 1] ∧
    (((getCachedSearch ((getCachedSearch { rows := [r], nextId := n } params userId now).2)
        params userId now).2).rows.map (fun x => x.accessCount)) = [r.accessCount + 2] := by
  have hsel : lookupSelect { rows := [r], nextId := n }
      (generateCacheKey params userId) userId now = some r := by
    simp [lookupSelect, List.filter, rowMatches, hkey, huser, hvalid]
  refine ⟨hsel, ?_, ?_⟩
  · simp [updateAccess]
  · simp only [getCachedSearch, hsel]
    have hsel2 : lookupSelect (updateAccess { rows := [r], nextId := n } r.id r.accessCount now)
        (generateCacheKey params userId) userId now =
        some { r with accessCount := r.accessCount + 1, updatedAt := now } := by
      simp [updateAccess, lookupSelect, List.filter, rowMatches, hkey, huser, hvalid]
    simp only [hsel2]
    simp [updateAccess]

/-- C8 witness: the read-then-write theorem at the concrete stored row. -/
theorem access_increment_read_then_write_witness :
    rowC3.cacheKey = generateCacheKey reqA 1 ∧ 1000 ≤ rowC3.expiresAt ∧
    ((updateAccess (updateAccess { rows := [rowC3], nextId := 2 } rowC3.id rowC3.accessCount 1000)
        rowC3.id rowC3.accessCount 1000).rows.map (fun x => x.accessCount)) =
      [rowC3.accessCount + 1] :=
  ⟨rfl, by decide,
   (access_increment_read_then_write rowC3 2 reqA 1 1000 rfl rfl (by decide)).2.1⟩

/-- C6 amended: every failed search call — non-success provider status,
malformed body, and hard transport failure alike — is absorbed: the loop
appends a tool-result turn whose content carries the error text and continues
with the remaining iteration budget; no kind of search failure is fatal to
the call. -/
theorem search_error_absorbed (model : List Msg → ModelResponse) (fetches : Nat → FetchResult)
    (st : LoopState) (rem : Nat) (pre post : List Block) (id nm : String) (inp : ToolInput)
    (e : String)
    (hpre : findToolUse pre = none)
    (hresp : (model st.msgs).content = pre ++ Block.toolUse id nm inp :: post)
    (herr : executeWebSearchTool inp (fetches st.searchQueries.length) = Except.error e) :
    agentLoop model fetches (rem + 1) st =
      agentLoop model fetches rem
        (agentStep fetches { st with modelCalls := st.modelCalls + 1 }
          (model st.msgs).content id inp) ∧
    (agentStep fetches { st with modelCalls := st.modelCalls + 1 }
        (model st.msgs).content id inp).msgs =
      st.msgs ++ [{ role := "assistant", content := (model st.msgs).content },
        { role := "user", content := [Block.toolResult id ("Error: " ++ e)] }] := by
  have hfu : findToolUse (model st.msgs).content = some (id, nm, inp) := by
    rw [hresp]; exact findToolUse_append_first pre post id nm inp hpre
  constructor
  · conv_lhs => unfold agentLoop
    simp only [hfu]
  · simp only [agentStep, herr]

/-- C6 witness: the absorption theorem at the concrete transport failure. -/
theorem search_error_absorbed_witness :
    executeWebSearchTool { query := "first query", numResults := none } (noFetch 0) =
      Except.error ("Serper API request failed: connection refused") ∧
    (agentStep noFetch { stA with modelCalls := stA.modelCalls + 1 }
        (twoToolModel stA.msgs).content ("toolu_1")
        { query := "first query", numResults := none }).msgs =
      stA.msgs ++ [{ role := "assistant", content := (twoToolModel stA.msgs).content },
        { role := "user", content := [Block.toolResult ("toolu_1")
          ("Error: Serper API request failed: connection refused")] }] :=
  ⟨rfl,
   (search_error_absorbed twoToolModel noFetch stA 0 []
      [Block.toolUse ("toolu_2") ("web_search") { query := "second query", numResults := none }]
      ("toolu_1") ("web_search") { query := "first query", numResults := none }
      ("Serper API request failed: connection refused") rfl rfl rfl).2⟩

/-- A miss leaves the table untouched. -/
theorem getCachedSearch_miss (db : Db) (params : SearchRequest) (userId now : Nat)
    (h : (getCachedSearch db params userId now).1 = none) :
    getCachedSearch db params userId now = (none, db) := by
  unfold getCachedSearch at h ⊢
  cases hsel : lookupSelect db (generateCacheKey params userId) userId now with
  | none => simp [hsel]
  | some r => simp [hsel] at h

/-- A loop iteration whose reply is a single final text block parses it after
fence stripping; JSON success finalizes, JSON failure is the parse error. -/
theorem agentLoop_final_text (model : List Msg → ModelResponse) (fetches : Nat → FetchResult)
    (rem : Nat) (st : LoopState) (t : String)
    (hresp : (model st.msgs).content = [Block.text t]) :
    agentLoop model fetches (rem + 1) st =
      (match parseJson (stripFence t) with
       | some v => (AgentOutcome.success v, { st with modelCalls := st.modelCalls + 1 })
       | none => (AgentOutcome.malformedOutput ("Failed to parse response: invalid JSON"),
           { st with modelCalls := st.modelCalls + 1 })) := by
  conv_lhs => unfold agentLoop
  simp only [hresp, findToolUse, findTextBlock]

/-- C5 amended: for a run whose first model reply is a single final text
block, the run returns successfully exactly when the text — after optional
code-fence stripping — parses as JSON at all; the parse step performs no
schema or shape validation. When JSON parsing fails the run raises the parse
failure and the handler emits an error event with no cache store write. -/
theorem final_parse_json_gate (model : List Msg → ModelResponse) (fetches : Nat → FetchResult)
    (db : Db) (params : SearchRequest) (userId now : Nat) (t : String)
    (hmiss : (getCachedSearch db params userId now).1 = none)
    (hresp : (model [{ role := "user", content := [Block.text (generateUserPrompt params)] }]).content
      = [Block.text t]) :
    ((match (findWeekendActivitiesStreaming model fetches params).1 with
      | AgentOutcome.success _ => true
      | _ => false) = (parseJson (stripFence t)).isSome) ∧
    (parseJson (stripFence t) = none →
      handleSearch model fetches db params userId now =
        (SseOutcome.errorEvent ("Failed to parse response: invalid JSON"), db)) := by
  have hrun : findWeekendActivitiesStreaming model fetches params =
      (match parseJson (stripFence t) with
       | some v => (AgentOutcome.success v,
           { msgs := [{ role := "user", content := [Block.text (generateUserPrompt params)] }]
             modelCalls := 1, searchQueries := [] })
       | none => (AgentOutcome.malformedOutput ("Failed to parse response: invalid JSON"),
           { msgs := [{ role := "user", content := [Block.text (generateUserPrompt params)] }]
             modelCalls := 1, searchQueries := [] })) := by
    show agentLoop model fetches (9 + 1)
      { msgs := [{ role := "user", content := [Block.text (generateUserPrompt params)] }]
        modelCalls := 0, searchQueries := [] } = _
    exact agentLoop_final_text model fetches 9 _ t hresp
  constructor
  · rw [hrun]
    cases hp : parseJson (stripFence t) with
    | some v => simp
    | none => simp
  · intro hp
    have hmiss2 := getCachedSearch_miss db params userId now hmiss
    rw [hp] at hrun
    simp only [handleSearch, hmiss2, hrun]

/-- C5 witness: the JSON gate theorem at a stub whose final reply is plain
prose; the handler emits the error event and the table is unchanged. -/
theorem final_parse_json_gate_witness :
    ((getCachedSearch { rows := [], nextId := 1 } reqA 1 1000).1 = none) ∧
    parseJson (stripFence ("Here are your recommendations!")) = none ∧
    handleSearch plainTextModel noFetch { rows := [], nextId := 1 } reqA 1 1000 =
      (SseOutcome.errorEvent ("Failed to parse response: invalid JSON"),
       { rows := [], nextId := 1 }) :=
  ⟨rfl, rfl,
   (final_parse_json_gate plainTextModel noFetch { rows := [], nextId := 1 } reqA 1 1000
      ("Here are your recommendations!") rfl rfl).2 rfl⟩

/-- Stable insertion permutes. -/
theorem insertByAge_perm (a : Attendee) (l : List Attendee) :
    (insertByAge a l).Perm (a :: l) := by
  induction l with
  | nil => exact List.Perm.refl _
  | cons b rest ih =>
    by_cases h : b.age < a.age
    · simp only [insertByAge, if_pos h]
      exact (ih.cons b).trans (List.Perm.swap a b rest)
    · simp only [insertByAge, if_neg h]
      exact List.Perm.refl _

/-- The stable sort permutes. -/
theorem sortByAge_perm (l : List Attendee) : (sortByAge l).Perm l := by
  induction l with
  | nil => exact List.Perm.refl _
  | cons a rest ih => exact (insertByAge_perm a (sortByAge rest)).trans (ih.cons a)

/-- Stable insertion preserves the ascending-age invariant. -/
theorem insertByAge_sorted (a : Attendee) (l : List Attendee)
    (h : l.Pairwise (fun x y : Attendee => x.age ≤ y.age)) :
    (insertByAge a l).Pairwise (fun x y : Attendee => x.age ≤ y.age) := by
  induction l with
  | nil => simp [insertByAge]
  | cons b rest ih =>
    rcases List.pairwise_cons.mp h with ⟨hb, hrest⟩
    by_cases hba : b.age < a.age
    · simp only [insertByAge, if_pos hba]
      rw [List.pairwise_cons]
      refine ⟨?_, ih hrest⟩
      intro x hx
      rcases List.mem_cons.mp ((insertByAge_perm a rest).mem_iff.mp hx) with rfl | hxr
      · omega
      · exact hb x hxr
    · simp only [insertByAge, if_neg hba]
      rw [List.pairwise_cons]
      refine ⟨?_, h⟩
      intro x hx
      rcases List.mem_cons.mp hx with rfl | hxr
      · omega
      · exact le_trans (by omega) (hb x hxr)

/-- The stable sort produces an ascending-age list. -/
theorem sortByAge_sorted (l : List Attendee) :
    (sortByAge l).Pairwise (fun x y : Attendee => x.age ≤ y.age) := by
  induction l with
  | nil => simp [sortByAge]
  | cons a rest ih => exact insertByAge_sorted a (sortByAge rest) ih

/-- On lists with pairwise distinct ages, the stable sort depends only on the
multiset of attendees: any permutation sorts to the same list. -/
theorem sortByAge_eq_of_perm (l1 l2 : List Attendee) (hperm : l1.Perm l2)
    (hd : l2.Pairwise (fun x y : Attendee => x.age ≠ y.age)) :
    sortByAge l1 = sortByAge l2 := by
  have p1 : (sortByAge l1).Perm (sortByAge l2) :=
    (sortByAge_perm l1).trans (hperm.trans (sortByAge_perm l2).symm)
  have hd2 : (sortByAge l2).Pairwise (fun x y : Attendee => x.age ≠ y.age) :=
    ((sortByAge_perm l2).pairwise_iff (fun h => Ne.symm h)).mpr hd
  have hd1 : (sortByAge l1).Pairwise (fun x y : Attendee => x.age ≠ y.age) :=
    (p1.pairwise_iff (fun h => Ne.symm h)).mpr hd2
  have s1 : (sortByAge l1).Pairwise (fun x y : Attendee => x.age < y.age) :=
    ((sortByAge_sorted l1).and hd1).imp (fun h => lt_of_le_of_ne h.1 h.2)
  have s2 : (sortByAge l2).Pairwise (fun x y : Attendee => x.age < y.age) :=
    ((sortByAge_sorted l2).and hd2).imp (fun h => lt_of_le_of_ne h.1 h.2)
  haveI : IsAntisymm Attendee (fun x y : Attendee => x.age < y.age) :=
    ⟨fun a b h1 h2 => absurd (lt_trans h1 h2) (lt_irrefl _)⟩
  exact List.eq_of_perm_of_sorted p1 s1 s2

/-- Membership in an age group forces membership and that age. -/
theorem mem_ageGroup {y : Attendee} {a : Nat} {l : List Attendee}
    (h : y ∈ ageGroup a l) : y ∈ l ∧ y.age = a := by
  rcases List.mem_filter.mp h with ⟨h1, h2⟩
  exact ⟨h1, by simpa using h2⟩

/-- A group of the matching head prepends it. -/
theorem ageGroup_cons_eq (x : Attendee) (l : List Attendee) :
    ageGroup x.age (x :: l) = x :: ageGroup x.age l := by
  simp [ageGroup, List.filter_cons]

/-- A group of a different age ignores the head. -/
theorem ageGroup_cons_ne (x : Attendee) (l : List Attendee) (a : Nat) (h : x.age ≠ a) :
    ageGroup a (x :: l) = ageGroup a l := by
  simp [ageGroup, List.filter_cons, h]

/-- Groups over an age-list head split off its group. -/
theorem groupsByAge_cons (b : Nat) (B : List Nat) (l : List Attendee) :
    groupsByAge (b :: B) l = ageGroup b l ++ groupsByAge B l := rfl

/-- Every member of the groups has its age in the age list. -/
theorem mem_groupsByAge {y : Attendee} {A : List Nat} {l : List Attendee}
    (h : y ∈ groupsByAge A l) : ∃ a ∈ A, y.age = a := by
  rcases List.mem_flatMap.mp h with ⟨a, ha, hy⟩
  exact ⟨a, ha, (mem_ageGroup hy).2⟩

/-- Prepending an attendee whose age is outside the age list leaves the
groups unchanged. -/
theorem groupsByAge_cons_of_notmem (x : Attendee) (l : List Attendee) (A : List Nat)
    (h : x.age ∉ A) :
    groupsByAge A (x :: l) = groupsByAge A l := by
  induction A with
  | nil => rfl
  | cons b B ih =>
    rw [groupsByAge_cons, groupsByAge_cons,
      ageGroup_cons_ne x l b (fun hc => h (hc ▸ List.mem_cons_self b B)),
      ih (fun hm => h (List.mem_cons_of_mem b hm))]

/-- Membership in `insertAge`. -/
theorem mem_insertAge {b a : Nat} {A : List Nat} :
    b ∈ insertAge a A ↔ b = a ∨ b ∈ A := by
  induction A with
  | nil => simp [insertAge]
  | cons c B ih =>
    by_cases h1 : c < a
    · simp only [insertAge, if_pos h1, List.mem_cons, ih]
      tauto
    · by_cases h2 : c = a
      · simp only [insertAge, if_neg h1, if_pos h2, List.mem_cons]
        subst h2
        tauto
      · simp only [insertAge, if_neg h1, if_neg h2, List.mem_cons]

/-- The distinct-age list contains exactly the ages present. -/
theorem mem_agesAsc {a : Nat} {l : List Attendee} :
    a ∈ agesAsc l ↔ ∃ y ∈ l, y.age = a := by
  induction l with
  | nil => simp [agesAsc]
  | cons x r ih =>
    simp only [agesAsc, mem_insertAge, ih, List.mem_cons]
    constructor
    · rintro (rfl | ⟨y, hy, rfl⟩)
      · exact ⟨x, Or.inl rfl, rfl⟩
      · exact ⟨y, Or.inr hy, rfl⟩
    · rintro ⟨y, (rfl | hy), rfl⟩
      · exact Or.inl rfl
      · exact Or.inr ⟨y, hy, rfl⟩

/-- `insertAge` preserves strict ascending order. -/
theorem insertAge_sorted {a : Nat} {A : List Nat} (h : A.Pairwise (· < ·)) :
    (insertAge a A).Pairwise (· < ·) := by
  induction A with
  | nil => simp [insertAge]
  | cons b B ih =>
    rcases List.pairwise_cons.mp h with ⟨hb, hB⟩
    by_cases h1 : b < a
    · simp only [insertAge, if_pos h1]
      rw [List.pairwise_cons]
      refine ⟨fun y hy => ?_, ih hB⟩
      rcases mem_insertAge.mp hy with rfl | hyB
      · exact h1
      · exact hb y hyB
    · by_cases h2 : b = a
      · simpa only [insertAge, if_neg h1, if_pos h2] using h
      · simp only [insertAge, if_neg h1, if_neg h2]
        rw [List.pairwise_cons]
        refine ⟨fun y hy => ?_, h⟩
        rcases List.mem_cons.mp hy with rfl | hyB
        · omega
        · have := hb y hyB
          omega

/-- The distinct-age list is strictly ascending. -/
theorem agesAsc_sorted (l : List Attendee) : (agesAsc l).Pairwise (· < ·) := by
  induction l with
  | nil => simp [agesAsc]
  | cons x r ih => exact insertAge_sorted ih

/-- Stable insertion passes over a prefix of strictly younger attendees. -/
theorem insertByAge_append_of_lt (x : Attendee) (p q : List Attendee)
    (h : ∀ y ∈ p, y.age < x.age) :
    insertByAge x (p ++ q) = p ++ insertByAge x q := by
  induction p with
  | nil => rfl
  | cons b p' ih =>
    simp only [List.cons_append, insertByAge, if_pos (h b (List.mem_cons_self b p'))]
    exact congrArg _ (ih (fun y hy => h y (List.mem_cons_of_mem b hy)))

/-- Stable insertion lands at the front when no element is strictly younger. -/
theorem insertByAge_eq_cons (x : Attendee) (q : List Attendee)
    (h : ∀ y ∈ q, ¬(y.age < x.age)) :
    insertByAge x q = x :: q := by
  cases q with
  | nil => rfl
  | cons b rest => simp only [insertByAge, if_neg (h b (List.mem_cons_self b rest))]

/-- Stable insertion against the group decomposition: inserting an attendee
into the groups of `l` over a strictly ascending age list gives the groups of
the extended list over the extended age list. -/
theorem insertByAge_groups (x : Attendee) (l : List Attendee) (A : List Nat)
    (hA : A.Pairwise (· < ·))
    (hx : x.age ∈ A ∨ ageGroup x.age l = []) :
    insertByAge x (groupsByAge A l) = groupsByAge (insertAge x.age A) (x :: l) := by
  induction A with
  | nil =>
    rcases hx with hmem | hempty
    · exact absurd hmem (List.not_mem_nil _)
    · show insertByAge x (groupsByAge [] l) = groupsByAge [x.age] (x :: l)
      rw [groupsByAge_cons, ageGroup_cons_eq, hempty]
      rfl
  | cons b B ih =>
    rcases List.pairwise_cons.mp hA with ⟨hb, hB⟩
    rcases Nat.lt_trichotomy b x.age with hlt | heq | hgt
    · have hne : x.age ≠ b := by omega
      have hx' : x.age ∈ B ∨ ageGroup x.age l = [] := by
        rcases hx with hmem | hempty
        · rcases List.mem_cons.mp hmem with h1 | h1
          · omega
          · exact Or.inl h1
        · exact Or.inr hempty
      have hins : insertAge x.age (b :: B) = b :: insertAge x.age B := by
        simp [insertAge, hlt]
      rw [hins, groupsByAge_cons, groupsByAge_cons, ageGroup_cons_ne x l b hne,
        insertByAge_append_of_lt x (ageGroup b l) (groupsByAge B l)
          (fun y hy => by rw [(mem_ageGroup hy).2]; exact hlt),
        ih hB hx']
    · subst heq
      have hnotmem : x.age ∉ B := fun hm => absurd (hb _ hm) (lt_irrefl _)
      have hins : insertAge x.age (x.age :: B) = x.age :: B := by
        simp [insertAge]
      rw [hins, groupsByAge_cons, groupsByAge_cons, ageGroup_cons_eq,
        groupsByAge_cons_of_notmem x l B hnotmem,
        insertByAge_eq_cons x (ageGroup x.age l ++ groupsByAge B l) ?front]
      · rfl
      case front =>
        intro y hy
        rcases List.mem_append.mp hy with h1 | h2
        · rw [(mem_ageGroup h1).2]
          omega
        · rcases mem_groupsByAge h2 with ⟨a, haB, hya⟩
          have := hb a haB
          omega
    · have hnotmem : x.age ∉ b :: B := by
        intro hm
        rcases List.mem_cons.mp hm with h1 | h1
        · omega
        · have := hb _ h1
          omega
      have hempty : ageGroup x.age l = [] := by
        rcases hx with hmem | he
        · exact absurd hmem hnotmem
        · exact he
      have hins : insertAge x.age (b :: B) = x.age :: b :: B := by
        simp only [insertAge, if_neg (by omega : ¬ b < x.age), if_neg (by omega : ¬ b = x.age)]
      rw [hins, groupsByAge_cons (x.age) (b :: B) (x :: l), ageGroup_cons_eq, hempty,
        groupsByAge_cons_of_notmem x l (b :: B) hnotmem,
        insertByAge_eq_cons x (groupsByAge (b :: B) l) ?front2]
      · rfl
      case front2 =>
        intro y hy
        rcases mem_groupsByAge hy with ⟨a, haA, hya⟩
        rcases List.mem_cons.mp haA with rfl | h1
        · omega
        · have := hb _ h1
          omega

/-- The stable sort is the concatenation of the age groups over the
ascending distinct ages. -/
theorem sortByAge_groups (l : List Attendee) :
    sortByAge l = groupsByAge (agesAsc l) l := by
  induction l with
  | nil => rfl
  | cons x r ih =>
    have hx : x.age ∈ agesAsc r ∨ ageGroup x.age r = [] := by
      by_cases hm : x.age ∈ agesAsc r
      · exact Or.inl hm
      · refine Or.inr (List.filter_eq_nil_iff.mpr ?_)
        intro y hy hc
        exact hm (mem_agesAsc.mpr ⟨y, hy, by simpa using hc⟩)
    show insertByAge x (sortByAge r) = groupsByAge (insertAge x.age (agesAsc r)) (x :: r)
    rw [ih, insertByAge_groups x r (agesAsc r) (agesAsc_sorted r) hx]

/-- Two strictly ascending lists of naturals with the same members are
equal. -/
theorem sorted_distinct_ext (A B : List Nat) (hA : A.Pairwise (· < ·))
    (hB : B.Pairwise (· < ·)) (h : ∀ a, a ∈ A ↔ a ∈ B) : A = B := by
  induction A generalizing B with
  | nil =>
    cases B with
    | nil => rfl
    | cons b B' => exact absurd ((h b).mpr (List.mem_cons_self b B')) (List.not_mem_nil b)
  | cons a A' ih =>
    cases B with
    | nil => exact absurd ((h a).mp (List.mem_cons_self a A')) (List.not_mem_nil a)
    | cons b B' =>
      rcases List.pairwise_cons.mp hA with ⟨ha, hA'⟩
      rcases List.pairwise_cons.mp hB with ⟨hb, hB'⟩
      have hab : a = b := by
        rcases List.mem_cons.mp ((h a).mp (List.mem_cons_self a A')) with h1 | h1
        · exact h1
        · rcases List.mem_cons.mp ((h b).mpr (List.mem_cons_self b B')) with h2 | h2
          · exact h2.symm
          · have hba := hb a h1
            have hab2 := ha b h2
            omega
      subst hab
      congr 1
      refine ih B' hA' hB' (fun x => ⟨fun hx => ?_, fun hx => ?_⟩)
      · rcases List.mem_cons.mp ((h x).mp (List.mem_cons_of_mem a hx)) with h1 | h1
        · have := ha x hx
          omega
        · exact h1
      · rcases List.mem_cons.mp ((h x).mpr (List.mem_cons_of_mem a hx)) with h1 | h1
        · have := hb x hx
          omega
        · exact h1

/-- Stable-sort extensionality: two attendee lists whose equal-age
subsequences coincide at every age — the same attendees per age, in the same
relative order — have the same stable sort. -/
theorem sortByAge_ext (l1 l2 : List Attendee)
    (h : ∀ a, ageGroup a l1 = ageGroup a l2) :
    sortByAge l1 = sortByAge l2 := by
  rw [sortByAge_groups l1, sortByAge_groups l2]
  have hmem : ∀ a, a ∈ agesAsc l1 ↔ a ∈ agesAsc l2 := by
    intro a
    rw [mem_agesAsc, mem_agesAsc]
    constructor
    · rintro ⟨y, hy, hya⟩
      have hmem1 : y ∈ ageGroup a l1 := List.mem_filter.mpr ⟨hy, by simp [hya]⟩
      rw [h a] at hmem1
      exact ⟨y, (List.mem_filter.mp hmem1).1, hya⟩
    · rintro ⟨y, hy, hya⟩
      have hmem2 : y ∈ ageGroup a l2 := List.mem_filter.mpr ⟨hy, by simp [hya]⟩
      rw [← h a] at hmem2
      exact ⟨y, (List.mem_filter.mp hmem2).1, hya⟩
  rw [sorted_distinct_ext (agesAsc l1) (agesAsc l2) (agesAsc_sorted l1) (agesAsc_sorted l2) hmem]
  have hfun : (fun a => ageGroup a l1) = (fun a => ageGroup a l2) := funext h
  unfold groupsByAge
  rw [hfun]

/-- C1 amended: the fingerprint is invariant under city and preferences case
changes and outer whitespace, an absent preferences field versus an empty
one, and attendee reorderings in which attendees of equal age keep their
relative order — formalized as: after role-lowering, the two attendee lists
have the same equal-age subsequence at every age (for pairwise distinct ages
this admits every reordering). Reorderings that swap equal-age attendees can
change the key. -/
theorem fingerprint_normalization_invariance (p1 p2 : SearchRequest) (userId : Nat)
    (hcity : jsTrim (jsToLower p2.city) = jsTrim (jsToLower p1.city))
    (hds : p2.dateRangeStart = p1.dateRangeStart)
    (hde : p2.dateRangeEnd = p1.dateRangeEnd)
    (hpref : jsTrim (jsToLower (p2.preferences.getD (""))) =
      jsTrim (jsToLower (p1.preferences.getD (""))))
    (hgroups : ∀ a, ageGroup a (p2.attendees.map normAttendee) =
      ageGroup a (p1.attendees.map normAttendee)) :
    generateCacheKey p2 userId = generateCacheKey p1 userId := by
  have hnorm : normalizeRequest p2 userId = normalizeRequest p1 userId := by
    unfold normalizeRequest
    rw [hcity, hds, hde, hpref, sortByAge_ext _ _ hgroups]
  unfold generateCacheKey
  rw [hnorm]

/-- C1 witness: the invariance theorem at a concrete pair of requests
differing in case, outer whitespace, attendee order, and
absent-versus-whitespace preferences. -/
theorem fingerprint_normalization_invariance_witness :
    jsTrim (jsToLower reqANoisy.city) = jsTrim (jsToLower reqA.city) ∧
    (∀ a, ageGroup a (reqANoisy.attendees.map normAttendee) =
      ageGroup a (reqA.attendees.map normAttendee)) ∧
    generateCacheKey reqANoisy 1 = generateCacheKey reqA 1 := by
  have hgroups : ∀ a, ageGroup a (reqANoisy.attendees.map normAttendee) =
      ageGroup a (reqA.attendees.map normAttendee) := by
    intro a
    have e1 : reqANoisy.attendees.map normAttendee =
        [{ age := 34, role := "adult" }, { age := 5, role := "child" }] := rfl
    have e2 : reqA.attendees.map normAttendee =
        [{ age := 5, role := "child" }, { age := 34, role := "adult" }] := rfl
    rw [e1, e2]
    by_cases h34 : 34 = a
    · subst h34
      decide
    · by_cases h5 : 5 = a
      · subst h5
        decide
      · simp [ageGroup, List.filter_cons, h34, h5]
  exact ⟨by decide, hgroups,
    fingerprint_normalization_invariance reqA reqANoisy 1
      (by decide) (by decide) (by decide) (by decide) hgroups⟩

end WeekendRecommender
